import Mathlib

/-!
Shallow embedding of the `shipyard_rapier` synchronization layer
(`src/physics/systems.rs`, `src/physics/components.rs`).

Entities, physics handles and the component storages of the `shipyard` ECS
are embedded as natural numbers and association lists; the Rapier engine
sets (`RigidBodySet`, `ColliderSet`, `JointSet`) are embedded as arenas
with a monotone fresh-handle counter.  The stepping system is embedded
over exact rational arithmetic (the Rust code uses `f32`; the algorithmic
content of the fixed-timestep accumulator is stated over `Rat`).
The Rapier pipeline itself is an external collaborator and appears as an
abstract `Engine` record of functions.
-/

set_option autoImplicit false

namespace ShipyardRapier

/-- Entity identities (`shipyard::EntityId`) are opaque tokens used only
for equality; embedded as `Nat`. -/
abbrev EntityId := Nat

/-- First-match lookup in a component storage, the embedding of
`ViewMut<T>::get(entity)`. -/
def getC {α : Type} : List (EntityId × α) → EntityId → Option α
  | [], _ => none
  | (k, v) :: rest, e => if k = e then some v else getC rest e

/-- `entities.add_component(entity, view, value)`: adds the component,
replacing a previous one.  With first-match lookup, consing realizes the
replacement semantics. -/
def addC {α : Type} (l : List (EntityId × α)) (e : EntityId) (v : α) :
    List (EntityId × α) :=
  (e, v) :: l

/-- `view.delete(entity)`: removes the component of `e`. -/
def delC {α : Type} (l : List (EntityId × α)) (e : EntityId) :
    List (EntityId × α) :=
  l.filter (fun p => p.1 ≠ e)

/-- Deleting a batch of entities from a storage, one after the other. -/
def delAll {α : Type} (l : List (EntityId × α)) (es : List EntityId) :
    List (EntityId × α) :=
  es.foldl delC l

theorem getC_addC_self {α : Type} (l : List (EntityId × α)) (e : EntityId)
    (v : α) : getC (addC l e v) e = some v := by
  simp [addC, getC]

theorem getC_addC_ne {α : Type} (l : List (EntityId × α)) (e e' : EntityId)
    (v : α) (h : e' ≠ e) : getC (addC l e' v) e = getC l e := by
  simp [addC, getC, h]

theorem getC_delC_self {α : Type} (l : List (EntityId × α)) (e : EntityId) :
    getC (delC l e) e = none := by
  induction l with
  | nil => rfl
  | cons p rest ih =>
    by_cases hp : p.1 = e
    · simpa [delC, hp] using ih
    · simpa [delC, getC, hp] using ih

theorem getC_delC_ne {α : Type} (l : List (EntityId × α)) (e e' : EntityId)
    (h : e' ≠ e) : getC (delC l e') e = getC l e := by
  induction l with
  | nil => rfl
  | cons p rest ih =>
    by_cases hq : p.1 = e'
    · have hpe : p.1 ≠ e := by rw [hq]; exact h
      rw [show delC (p :: rest) e' = delC rest e' by simp [delC, List.filter, hq]]
      rw [ih]
      simp [getC, hpe]
    · rw [show delC (p :: rest) e' = p :: delC rest e' by
        simp [delC, List.filter, hq]]
      simp [getC, ih]

theorem getC_none_of_filter {α : Type} (l : List (EntityId × α))
    (p : EntityId × α → Bool) (e : EntityId) (h : getC l e = none) :
    getC (l.filter p) e = none := by
  induction l with
  | nil => rfl
  | cons q rest ih =>
    by_cases hq : q.1 = e
    · simp [getC, hq] at h
    · rcases hpq : p q with _ | _
      · simp only [List.filter, hpq]
        exact ih (by simpa [getC, hq] using h)
      · simp only [List.filter, hpq]
        simpa [getC, hq] using ih (by simpa [getC, hq] using h)

/-- Once a key is absent from a storage, a batch of deletions never makes
it reappear. -/
theorem getC_delAll_of_absent {α : Type} (es : List EntityId) :
    ∀ (l : List (EntityId × α)) (e : EntityId), getC l e = none →
    getC (delAll l es) e = none := by
  induction es with
  | nil => intro l e h; exact h
  | cons e' rest ih =>
    intro l e h
    have : delAll l (e' :: rest) = delAll (delC l e') rest := rfl
    rw [this]
    exact ih (delC l e') e (getC_none_of_filter l _ e h)

theorem getC_delAll_mem {α : Type} (es : List EntityId) :
    ∀ (l : List (EntityId × α)) (e : EntityId), e ∈ es →
    getC (delAll l es) e = none := by
  induction es with
  | nil => intro l e h; cases h
  | cons e' rest ih =>
    intro l e h
    have hstep : delAll l (e' :: rest) = delAll (delC l e') rest := rfl
    rcases List.mem_cons.mp h with h | h
    · subst h
      rw [hstep]
      exact getC_delAll_of_absent rest (delC l e) e (getC_delC_self l e)
    · exact ih (delC l e') e h

theorem getC_delAll_not_mem {α : Type} (es : List EntityId) :
    ∀ (l : List (EntityId × α)) (e : EntityId), e ∉ es →
    getC (delAll l es) e = getC l e := by
  induction es with
  | nil => intro l e _; rfl
  | cons e' rest ih =>
    intro l e h
    have h1 : e ∉ rest := fun hm => h (by simp [hm])
    have h2 : e' ≠ e := fun hc => h (by simp [hc])
    have : delAll l (e' :: rest) = delAll (delC l e') rest := rfl
    rw [this, ih (delC l e') e h1, getC_delC_ne l e e' h2]

/-- Deleting every key of a storage empties it (the creation system collects
every iterated entity id and then deletes all of them). -/
theorem delAll_keys_nil {α : Type} (l : List (EntityId × α))
    (es : List EntityId) (h : ∀ p ∈ l, p.1 ∈ es) : delAll l es = [] := by
  have hsub : ∀ (es' : List EntityId) (l' : List (EntityId × α)),
      delAll l' es' = l'.filter (fun p => decide (p.1 ∉ es')) := by
    intro es'
    induction es' with
    | nil => intro l'; simp [delAll]
    | cons e rest ih =>
      intro l'
      have : delAll l' (e :: rest) = delAll (delC l' e) rest := rfl
      rw [this, ih (delC l' e)]
      simp [delC, List.filter_filter]
      congr 1
      funext p
      by_cases h1 : p.1 = e <;> by_cases h2 : p.1 ∈ rest <;> simp [h1, h2]
  rw [hsub es l]
  refine List.filter_eq_nil_iff.mpr ?_
  intro p hp
  simpa using h p hp

/-! ## Rapier arena sets

`RigidBodySet` / `ColliderSet` / `JointSet` are arenas issuing fresh
handles; embedded with a monotone counter.  `RigidBodyBuilder::build()` /
`ColliderBuilder::build()` are identities at this level of abstraction:
the arena stores the built specification.  `ColliderSet::insert`
additionally records the parent body handle; `JointSet::insert` records
the two body handles and the joint parameters (the `&mut bodies`
argument only wakes the bodies up, which is not observable here). -/

/-- The embedding of `rapier::dynamics::RigidBodySet`. -/
structure RigidBodySet (B : Type) where
  next : Nat
  arena : List (Nat × B)

def RigidBodySet.insert {B : Type} (s : RigidBodySet B) (b : B) :
    Nat × RigidBodySet B :=
  (s.next, ⟨s.next + 1, (s.next, b) :: s.arena⟩)

/-- The embedding of `rapier::geometry::ColliderSet`; each entry stores the
collider data and its parent body handle. -/
structure ColliderSet (C : Type) where
  next : Nat
  arena : List (Nat × C × Nat)

def ColliderSet.insert {C : Type} (s : ColliderSet C) (c : C)
    (parent : Nat) : Nat × ColliderSet C :=
  (s.next, ⟨s.next + 1, (s.next, c, parent) :: s.arena⟩)

/-- `collider.parent()` for a collider handle of the arena. -/
def ColliderSet.parentOf {C : Type} (s : ColliderSet C) (h : Nat) :
    Option Nat :=
  (getC s.arena h).map Prod.snd

/-- The embedding of `rapier::dynamics::JointSet`; each entry stores the two
attached body handles and the joint parameters. -/
structure JointSet (P : Type) where
  next : Nat
  arena : List (Nat × Nat × Nat × P)

def JointSet.insert {P : Type} (s : JointSet P) (b1 b2 : Nat) (params : P) :
    Nat × JointSet P :=
  (s.next, ⟨s.next + 1, (s.next, b1, b2, params) :: s.arena⟩)

/-- Every handle of the arena is below the fresh counter, so freshly
inserted entries never shadow existing ones. -/
def arenaWf {γ : Type} (next : Nat) (arena : List (Nat × γ)) : Prop :=
  ∀ p ∈ arena, p.1 < next

/-- `EntityMaps` (declared in the physics module but absent from `src/`;
its use in `systems.rs` and the spec's Entity↔Handle Map fix it as three
entity→handle dictionaries for bodies, colliders and joints). -/
structure EntityMaps where
  bodies : List (EntityId × Nat)
  colliders : List (EntityId × Nat)
  joints : List (EntityId × Nat)

/-! ## create_body_and_collider_system (`systems.rs` lines 34-87) -/

/-- The views and uniques touched by `create_body_and_collider_system`.
`B` is the rigid-body (builder) datatype, `C` the collider one. -/
structure CreateState (B C : Type) where
  bodies : RigidBodySet B
  colliders : ColliderSet C
  maps : EntityMaps
  bodyBuilders : List (EntityId × B)
  colliderBuilders : List (EntityId × C)
  bodyHandles : List (EntityId × Nat)
  colliderHandles : List (EntityId × Nat)

/-- Loop body, body part: `bodies.insert(body_builder.build())`, attach the
`RigidBodyHandleComponent`, record the map entry.  Returns the new handle
together with the updated state. -/
def bodyPhase {B C : Type} (st : CreateState B C) (e : EntityId) (bb : B) :
    Nat × CreateState B C :=
  let hb := st.bodies.insert bb
  (hb.1,
    { st with
      bodies := hb.2
      bodyHandles := addC st.bodyHandles e hb.1
      maps := { st.maps with bodies := addC st.maps.bodies e hb.1 } })

/-- Loop body, collider part: `colliders.insert(collider, handle, &mut bodies)`
with the freshly created body handle as parent, attach the
`ColliderHandleComponent`, record the map entry. -/
def colliderPhase {B C : Type} (st : CreateState B C) (e : EntityId) (cb : C)
    (bh : Nat) : CreateState B C :=
  let hc := st.colliders.insert cb bh
  { st with
    colliders := hc.2
    colliderHandles := addC st.colliderHandles e hc.1
    maps := { st.maps with colliders := addC st.maps.colliders e hc.1 } }

/-- The `for (entity_id, body_builder) in rigid_body_builders.iter().with_id()`
loop: inserts the body, attaches the handle component, records the map
entry, collects the builder for deletion, and does the same for a collider
builder present on the same entity.  The builder storages themselves are
not modified inside the loop (deletion happens afterwards), so
`collider_builders.get(entity_id)` reads `st.colliderBuilders`. -/
def createLoop {B C : Type} :
    List (EntityId × B) → CreateState B C → List EntityId → List EntityId →
    CreateState B C × List EntityId × List EntityId
  | [], st, bdel, cdel => (st, bdel, cdel)
  | (e, bb) :: rest, st, bdel, cdel =>
    let p := bodyPhase st e bb
    match getC st.colliderBuilders e with
    | some cb =>
      createLoop rest (colliderPhase p.2 e cb p.1) (bdel ++ [e]) (cdel ++ [e])
    | none => createLoop rest p.2 (bdel ++ [e]) cdel

/-- `create_body_and_collider_system`: run the creation loop over the body
builders, then delete the collected builder components. -/
def create_body_and_collider_system {B C : Type} (st : CreateState B C) :
    CreateState B C :=
  let r := createLoop st.bodyBuilders st [] []
  { r.1 with
    bodyBuilders := delAll r.1.bodyBuilders r.2.1
    colliderBuilders := delAll r.1.colliderBuilders r.2.2 }

theorem getC_eq_none_iff {α : Type} (l : List (EntityId × α)) (e : EntityId) :
    getC l e = none ↔ e ∉ l.map Prod.fst := by
  induction l with
  | nil => simp [getC]
  | cons p rest ih =>
    simp only [getC, List.map_cons, List.mem_cons]
    by_cases hp : p.1 = e
    · simp [hp]
    · have hep : ¬e = p.1 := fun hc => hp hc.symm
      simp [hp, hep, ih]

@[simp] theorem bodyPhase_fst {B C : Type} (st : CreateState B C)
    (e : EntityId) (bb : B) : (bodyPhase st e bb).1 = st.bodies.next := rfl

@[simp] theorem bodyPhase_colliders {B C : Type} (st : CreateState B C)
    (e : EntityId) (bb : B) : (bodyPhase st e bb).2.colliders = st.colliders :=
  rfl

@[simp] theorem bodyPhase_colliderBuilders {B C : Type} (st : CreateState B C)
    (e : EntityId) (bb : B) :
    (bodyPhase st e bb).2.colliderBuilders = st.colliderBuilders := rfl

@[simp] theorem bodyPhase_bodyBuilders {B C : Type} (st : CreateState B C)
    (e : EntityId) (bb : B) :
    (bodyPhase st e bb).2.bodyBuilders = st.bodyBuilders := rfl

@[simp] theorem bodyPhase_colliderHandles {B C : Type} (st : CreateState B C)
    (e : EntityId) (bb : B) :
    (bodyPhase st e bb).2.colliderHandles = st.colliderHandles := rfl

@[simp] theorem bodyPhase_mapsColliders {B C : Type} (st : CreateState B C)
    (e : EntityId) (bb : B) :
    (bodyPhase st e bb).2.maps.colliders = st.maps.colliders := rfl

@[simp] theorem bodyPhase_bodyHandles {B C : Type} (st : CreateState B C)
    (e : EntityId) (bb : B) :
    (bodyPhase st e bb).2.bodyHandles = addC st.bodyHandles e st.bodies.next :=
  rfl

@[simp] theorem bodyPhase_mapsBodies {B C : Type} (st : CreateState B C)
    (e : EntityId) (bb : B) :
    (bodyPhase st e bb).2.maps.bodies = addC st.maps.bodies e st.bodies.next :=
  rfl

@[simp] theorem colliderPhase_bodyHandles {B C : Type} (st : CreateState B C)
    (e : EntityId) (cb : C) (bh : Nat) :
    (colliderPhase st e cb bh).bodyHandles = st.bodyHandles := rfl

@[simp] theorem colliderPhase_mapsBodies {B C : Type} (st : CreateState B C)
    (e : EntityId) (cb : C) (bh : Nat) :
    (colliderPhase st e cb bh).maps.bodies = st.maps.bodies := rfl

@[simp] theorem colliderPhase_bodyBuilders {B C : Type} (st : CreateState B C)
    (e : EntityId) (cb : C) (bh : Nat) :
    (colliderPhase st e cb bh).bodyBuilders = st.bodyBuilders := rfl

@[simp] theorem colliderPhase_colliderBuilders {B C : Type}
    (st : CreateState B C) (e : EntityId) (cb : C) (bh : Nat) :
    (colliderPhase st e cb bh).colliderBuilders = st.colliderBuilders := rfl

@[simp] theorem colliderPhase_colliderHandles {B C : Type}
    (st : CreateState B C) (e : EntityId) (cb : C) (bh : Nat) :
    (colliderPhase st e cb bh).colliderHandles
      = addC st.colliderHandles e st.colliders.next := rfl

@[simp] theorem colliderPhase_mapsColliders {B C : Type}
    (st : CreateState B C) (e : EntityId) (cb : C) (bh : Nat) :
    (colliderPhase st e cb bh).maps.colliders
      = addC st.maps.colliders e st.colliders.next := rfl

@[simp] theorem colliderPhase_colliders {B C : Type} (st : CreateState B C)
    (e : EntityId) (cb : C) (bh : Nat) :
    (colliderPhase st e cb bh).colliders
      = ⟨st.colliders.next + 1, (st.colliders.next, cb, bh) :: st.colliders.arena⟩ :=
  rfl

theorem createLoop_builders_const {B C : Type} :
    ∀ (bs : List (EntityId × B)) (st : CreateState B C)
      (bdel cdel : List EntityId),
    (createLoop bs st bdel cdel).1.bodyBuilders = st.bodyBuilders ∧
    (createLoop bs st bdel cdel).1.colliderBuilders = st.colliderBuilders := by
  intro bs
  induction bs with
  | nil => intro st bdel cdel; exact ⟨rfl, rfl⟩
  | cons p rest ih =>
    intro st bdel cdel
    rcases p with ⟨e, bb⟩
    simp only [createLoop]
    cases hcb : getC st.colliderBuilders e <;> simp only [hcb]
    · rcases ih (bodyPhase st e bb).2 (bdel ++ [e]) cdel with ⟨h1, h2⟩
      rw [h1, h2]; simp
    · rename_i cb
      rcases ih (colliderPhase (bodyPhase st e bb).2 e cb (bodyPhase st e bb).1)
          (bdel ++ [e]) (cdel ++ [e]) with ⟨h1, h2⟩
      rw [h1, h2]; simp

theorem createLoop_bdel {B C : Type} :
    ∀ (bs : List (EntityId × B)) (st : CreateState B C)
      (bdel cdel : List EntityId),
    (createLoop bs st bdel cdel).2.1 = bdel ++ bs.map Prod.fst := by
  intro bs
  induction bs with
  | nil => intro st bdel cdel; simp [createLoop]
  | cons p rest ih =>
    intro st bdel cdel
    rcases p with ⟨e, bb⟩
    simp only [createLoop]
    cases hcb : getC st.colliderBuilders e <;> simp only [hcb]
    · rw [ih (bodyPhase st e bb).2 (bdel ++ [e]) cdel]; simp
    · rename_i cb
      rw [ih (colliderPhase (bodyPhase st e bb).2 e cb (bodyPhase st e bb).1)
        (bdel ++ [e]) (cdel ++ [e])]
      simp

theorem createLoop_cdel_sub {B C : Type} :
    ∀ (bs : List (EntityId × B)) (st : CreateState B C)
      (bdel cdel : List EntityId) (x : EntityId),
    x ∈ (createLoop bs st bdel cdel).2.2 →
    x ∈ cdel ∨ x ∈ bs.map Prod.fst := by
  intro bs
  induction bs with
  | nil => intro st bdel cdel x hx; exact Or.inl hx
  | cons p rest ih =>
    intro st bdel cdel x hx
    rcases p with ⟨e, bb⟩
    simp only [createLoop] at hx
    cases hcb : getC st.colliderBuilders e <;> simp only [hcb] at hx
    · rcases ih (bodyPhase st e bb).2 (bdel ++ [e]) cdel x hx with h | h
      · exact Or.inl h
      · exact Or.inr (by simp [h])
    · rename_i cb
      rcases ih (colliderPhase (bodyPhase st e bb).2 e cb (bodyPhase st e bb).1)
          (bdel ++ [e]) (cdel ++ [e]) x hx with h | h
      · rcases List.mem_append.mp h with h | h
        · exact Or.inl h
        · exact Or.inr (by simp [List.mem_singleton.mp h])
      · exact Or.inr (by simp [h])

theorem createLoop_cdel_mono {B C : Type} :
    ∀ (bs : List (EntityId × B)) (st : CreateState B C)
      (bdel cdel : List EntityId) (x : EntityId),
    x ∈ cdel → x ∈ (createLoop bs st bdel cdel).2.2 := by
  intro bs
  induction bs with
  | nil => intro st bdel cdel x hx; exact hx
  | cons p rest ih =>
    intro st bdel cdel x hx
    rcases p with ⟨e, bb⟩
    simp only [createLoop]
    cases hcb : getC st.colliderBuilders e <;> simp only [hcb]
    · exact ih (bodyPhase st e bb).2 (bdel ++ [e]) cdel x hx
    · rename_i cb
      exact ih (colliderPhase (bodyPhase st e bb).2 e cb (bodyPhase st e bb).1)
        (bdel ++ [e]) (cdel ++ [e]) x (by simp [hx])

/-- Entities that carry no body builder are untouched by the creation
loop: their handle components and map entries are unchanged. -/
theorem createLoop_untouched {B C : Type} :
    ∀ (bs : List (EntityId × B)) (st : CreateState B C)
      (bdel cdel : List EntityId) (e : EntityId),
    e ∉ bs.map Prod.fst →
    getC (createLoop bs st bdel cdel).1.bodyHandles e = getC st.bodyHandles e ∧
    getC (createLoop bs st bdel cdel).1.maps.bodies e = getC st.maps.bodies e ∧
    getC (createLoop bs st bdel cdel).1.colliderHandles e
      = getC st.colliderHandles e ∧
    getC (createLoop bs st bdel cdel).1.maps.colliders e
      = getC st.maps.colliders e := by
  intro bs
  induction bs with
  | nil => intro st bdel cdel e _; exact ⟨rfl, rfl, rfl, rfl⟩
  | cons p rest ih =>
    intro st bdel cdel e he
    rcases p with ⟨e₁, bb⟩
    have hne : e₁ ≠ e := fun hc => he (by simp [hc])
    have hrest : e ∉ rest.map Prod.fst := fun hm => he (by simp [hm])
    simp only [createLoop]
    cases hcb : getC st.colliderBuilders e₁ <;> simp only [hcb]
    · rcases ih (bodyPhase st e₁ bb).2 (bdel ++ [e₁]) cdel e hrest with
        ⟨h1, h2, h3, h4⟩
      rw [h1, h2, h3, h4]
      simp [getC_addC_ne _ _ _ _ hne]
    · rename_i cb
      rcases ih (colliderPhase (bodyPhase st e₁ bb).2 e₁ cb (bodyPhase st e₁ bb).1)
          (bdel ++ [e₁]) (cdel ++ [e₁]) e hrest with ⟨h1, h2, h3, h4⟩
      rw [h1, h2, h3, h4]
      simp [getC_addC_ne _ _ _ _ hne]

/-- The collider arena only grows with fresh handles: well-formedness is
preserved, the counter is monotone, and the parent of a pre-existing
collider never changes. -/
theorem createLoop_colliders_mono {B C : Type} :
    ∀ (bs : List (EntityId × B)) (st : CreateState B C)
      (bdel cdel : List EntityId),
    arenaWf st.colliders.next st.colliders.arena →
    arenaWf (createLoop bs st bdel cdel).1.colliders.next
      (createLoop bs st bdel cdel).1.colliders.arena ∧
    st.colliders.next ≤ (createLoop bs st bdel cdel).1.colliders.next ∧
    ∀ ch, ch < st.colliders.next →
      (createLoop bs st bdel cdel).1.colliders.parentOf ch
        = st.colliders.parentOf ch := by
  intro bs
  induction bs with
  | nil =>
    intro st bdel cdel hwf
    exact ⟨hwf, Nat.le_refl _, fun ch _ => rfl⟩
  | cons p rest ih =>
    intro st bdel cdel hwf
    rcases p with ⟨e₁, bb⟩
    simp only [createLoop]
    cases hcb : getC st.colliderBuilders e₁ <;> simp only [hcb]
    · exact ih (bodyPhase st e₁ bb).2 (bdel ++ [e₁]) cdel hwf
    · rename_i cb
      have hwf2 : arenaWf
          (colliderPhase (bodyPhase st e₁ bb).2 e₁ cb (bodyPhase st e₁ bb).1).colliders.next
          (colliderPhase (bodyPhase st e₁ bb).2 e₁ cb (bodyPhase st e₁ bb).1).colliders.arena := by
        simp only [colliderPhase_colliders, bodyPhase_colliders]
        intro q hq
        rcases List.mem_cons.mp hq with hq | hq
        · rw [hq]; exact Nat.lt_succ_self _
        · exact Nat.lt_succ_of_lt (hwf q hq)
      rcases ih (colliderPhase (bodyPhase st e₁ bb).2 e₁ cb (bodyPhase st e₁ bb).1)
          (bdel ++ [e₁]) (cdel ++ [e₁]) hwf2 with ⟨h1, h2, h3⟩
      refine ⟨h1, ?_, ?_⟩
      · refine Nat.le_trans ?_ h2
        simp
      · intro ch hch
        rw [h3 ch (by simpa using Nat.lt_succ_of_lt hch)]
        have hne : st.colliders.next ≠ ch := Nat.ne_of_gt hch
        simp [ColliderSet.parentOf, getC, hne]

/-- Progress through the creation loop: an iterated entity that also
carries a collider builder ends up with both handle components, both map
entries, a collider parented to its body, and is collected for collider
builder deletion. -/
theorem createLoop_spec {B C : Type} :
    ∀ (bs : List (EntityId × B)) (st : CreateState B C)
      (bdel cdel : List EntityId) (e : EntityId) (cb : C),
    (bs.map Prod.fst).Nodup →
    e ∈ bs.map Prod.fst →
    getC st.colliderBuilders e = some cb →
    arenaWf st.colliders.next st.colliders.arena →
    ∃ bh ch,
      getC (createLoop bs st bdel cdel).1.bodyHandles e = some bh ∧
      getC (createLoop bs st bdel cdel).1.maps.bodies e = some bh ∧
      getC (createLoop bs st bdel cdel).1.colliderHandles e = some ch ∧
      getC (createLoop bs st bdel cdel).1.maps.colliders e = some ch ∧
      (createLoop bs st bdel cdel).1.colliders.parentOf ch = some bh ∧
      e ∈ (createLoop bs st bdel cdel).2.2 := by
  intro bs
  induction bs with
  | nil => intro st bdel cdel e cb _ hmem _ _; cases hmem
  | cons p rest ih =>
    intro st bdel cdel e cb hnd hmem hcb hwf
    rcases p with ⟨e₁, bb⟩
    simp only [List.map_cons, List.nodup_cons] at hnd
    by_cases he : e₁ = e
    · subst he
      simp only [createLoop, hcb]
      have hrest : e₁ ∉ rest.map Prod.fst := hnd.1
      -- the state right after processing `e₁`
      have hwf2 : arenaWf
          (colliderPhase (bodyPhase st e₁ bb).2 e₁ cb (bodyPhase st e₁ bb).1).colliders.next
          (colliderPhase (bodyPhase st e₁ bb).2 e₁ cb (bodyPhase st e₁ bb).1).colliders.arena := by
        simp only [colliderPhase_colliders, bodyPhase_colliders]
        intro q hq
        rcases List.mem_cons.mp hq with hq | hq
        · rw [hq]; exact Nat.lt_succ_self _
        · exact Nat.lt_succ_of_lt (hwf q hq)
      rcases createLoop_untouched rest
          (colliderPhase (bodyPhase st e₁ bb).2 e₁ cb (bodyPhase st e₁ bb).1)
          (bdel ++ [e₁]) (cdel ++ [e₁]) e₁ hrest with ⟨h1, h2, h3, h4⟩
      rcases createLoop_colliders_mono rest
          (colliderPhase (bodyPhase st e₁ bb).2 e₁ cb (bodyPhase st e₁ bb).1)
          (bdel ++ [e₁]) (cdel ++ [e₁]) hwf2 with ⟨_, _, h5⟩
      refine ⟨st.bodies.next, st.colliders.next, ?_, ?_, ?_, ?_, ?_, ?_⟩
      · rw [h1]; simp [getC_addC_self]
      · rw [h2]; simp [getC_addC_self]
      · rw [h3]; simp [getC_addC_self]
      · rw [h4]; simp [getC_addC_self]
      · rw [h5 st.colliders.next (by simp)]
        simp [ColliderSet.parentOf, getC]
      · exact createLoop_cdel_mono rest _ _ _ e₁ (by simp)
    · have hmem' : e ∈ rest.map Prod.fst := by
        rcases List.mem_cons.mp hmem with h | h
        · exact absurd h.symm he
        · exact h
      simp only [createLoop]
      cases hcb₁ : getC st.colliderBuilders e₁ <;> simp only [hcb₁]
      · exact ih (bodyPhase st e₁ bb).2 (bdel ++ [e₁]) cdel e cb hnd.2
          hmem' (by simpa using hcb) (by simpa using hwf)
      · rename_i cb₁
        have hwf2 : arenaWf
            (colliderPhase (bodyPhase st e₁ bb).2 e₁ cb₁ (bodyPhase st e₁ bb).1).colliders.next
            (colliderPhase (bodyPhase st e₁ bb).2 e₁ cb₁ (bodyPhase st e₁ bb).1).colliders.arena := by
          simp only [colliderPhase_colliders, bodyPhase_colliders]
          intro q hq
          rcases List.mem_cons.mp hq with hq | hq
          · rw [hq]; exact Nat.lt_succ_self _
          · exact Nat.lt_succ_of_lt (hwf q hq)
        exact ih (colliderPhase (bodyPhase st e₁ bb).2 e₁ cb₁ (bodyPhase st e₁ bb).1)
          (bdel ++ [e₁]) (cdel ++ [e₁]) e cb hnd.2 hmem' (by simpa using hcb) hwf2

theorem getC_mem_keys {α : Type} (l : List (EntityId × α)) (e : EntityId)
    (v : α) (h : getC l e = some v) : e ∈ l.map Prod.fst := by
  by_contra hc
  rw [(getC_eq_none_iff l e).mpr hc] at h
  cases h

/-- C1.  For every entity carrying both a body builder and a collider
builder, one run of `create_body_and_collider_system` attaches a body
handle and a collider handle component, deletes both builders, parents the
created collider to the entity's body handle, records both map entries,
and leaves no entity with both a body builder and a body handle. -/
theorem create_body_and_collider_spec {B C : Type} (st : CreateState B C)
    (e : EntityId) (bb : B) (cb : C)
    (hnodup : (st.bodyBuilders.map Prod.fst).Nodup)
    (hwf : arenaWf st.colliders.next st.colliders.arena)
    (hb : getC st.bodyBuilders e = some bb)
    (hc : getC st.colliderBuilders e = some cb) :
    ∃ bh ch,
      getC (create_body_and_collider_system st).bodyHandles e = some bh ∧
      getC (create_body_and_collider_system st).colliderHandles e = some ch ∧
      getC (create_body_and_collider_system st).bodyBuilders e = none ∧
      getC (create_body_and_collider_system st).colliderBuilders e = none ∧
      (create_body_and_collider_system st).colliders.parentOf ch = some bh ∧
      getC (create_body_and_collider_system st).maps.bodies e = some bh ∧
      getC (create_body_and_collider_system st).maps.colliders e = some ch ∧
      ∀ e', getC (create_body_and_collider_system st).bodyBuilders e' = none ∨
        getC (create_body_and_collider_system st).bodyHandles e' = none := by
  have hmem : e ∈ st.bodyBuilders.map Prod.fst := getC_mem_keys _ _ _ hb
  rcases createLoop_spec st.bodyBuilders st [] [] e cb hnodup hmem hc hwf with
    ⟨bh, ch, h1, h2, h3, h4, h5, h6⟩
  have hconst := createLoop_builders_const st.bodyBuilders st [] []
  have hbdel := createLoop_bdel st.bodyBuilders st [] []
  have hempty : delAll (createLoop st.bodyBuilders st [] []).1.bodyBuilders
      (createLoop st.bodyBuilders st [] []).2.1 = [] := by
    rw [hconst.1, hbdel]
    exact delAll_keys_nil _ _ (fun p hp => by
      simp only [List.nil_append]
      exact List.mem_map.mpr ⟨p, hp, rfl⟩)
  refine ⟨bh, ch, ?_, ?_, ?_, ?_, ?_, ?_, ?_, ?_⟩ <;>
    simp only [create_body_and_collider_system]
  · exact h1
  · exact h3
  · rw [hempty]; rfl
  · rw [hconst.2]
    exact getC_delAll_mem _ _ _ h6
  · exact h5
  · exact h2
  · exact h4
  · intro e'
    left
    rw [hempty]; rfl

/-- A tiny concrete world: one entity (id 1) staged with both a body
builder and a collider builder. -/
def sampleCreateState : CreateState Nat Nat :=
  ⟨⟨0, []⟩, ⟨0, []⟩, ⟨[], [], []⟩, [(1, 10)], [(1, 20)], [], []⟩

theorem create_body_and_collider_spec_witness :
    (((sampleCreateState.bodyBuilders.map Prod.fst).Nodup ∧
      arenaWf sampleCreateState.colliders.next sampleCreateState.colliders.arena) ∧
     getC sampleCreateState.bodyBuilders 1 = some 10 ∧
     getC sampleCreateState.colliderBuilders 1 = some 20) ∧
    ∃ bh ch,
      getC (create_body_and_collider_system sampleCreateState).bodyHandles 1
        = some bh ∧
      getC (create_body_and_collider_system sampleCreateState).colliderHandles 1
        = some ch ∧
      getC (create_body_and_collider_system sampleCreateState).bodyBuilders 1
        = none ∧
      getC (create_body_and_collider_system sampleCreateState).colliderBuilders 1
        = none ∧
      (create_body_and_collider_system sampleCreateState).colliders.parentOf ch
        = some bh ∧
      getC (create_body_and_collider_system sampleCreateState).maps.bodies 1
        = some bh ∧
      getC (create_body_and_collider_system sampleCreateState).maps.colliders 1
        = some ch ∧
      ∀ e', getC (create_body_and_collider_system sampleCreateState).bodyBuilders e'
          = none ∨
        getC (create_body_and_collider_system sampleCreateState).bodyHandles e'
          = none :=
  ⟨⟨⟨by decide, fun p hp => absurd hp (List.not_mem_nil p)⟩, by decide, by decide⟩,
    create_body_and_collider_spec sampleCreateState 1 10 20 (by decide)
      (fun p hp => absurd hp (List.not_mem_nil p)) (by decide) (by decide)⟩

/-- C9.  An entity with only a collider builder (no body builder) is left
completely alone by `create_body_and_collider_system`: builder kept, no
handle component, no map entry. -/
theorem collider_only_entity_untouched {B C : Type} (st : CreateState B C)
    (e : EntityId) (cb : C)
    (hnob : getC st.bodyBuilders e = none)
    (hc : getC st.colliderBuilders e = some cb) :
    getC (create_body_and_collider_system st).colliderBuilders e = some cb ∧
    getC (create_body_and_collider_system st).colliderHandles e
      = getC st.colliderHandles e ∧
    getC (create_body_and_collider_system st).maps.colliders e
      = getC st.maps.colliders e ∧
    getC (create_body_and_collider_system st).bodyHandles e
      = getC st.bodyHandles e ∧
    getC (create_body_and_collider_system st).maps.bodies e
      = getC st.maps.bodies e := by
  have hmem : e ∉ st.bodyBuilders.map Prod.fst := (getC_eq_none_iff _ _).mp hnob
  rcases createLoop_untouched st.bodyBuilders st [] [] e hmem with ⟨h1, h2, h3, h4⟩
  have hconst := createLoop_builders_const st.bodyBuilders st [] []
  have hcdel : e ∉ (createLoop st.bodyBuilders st [] []).2.2 := by
    intro hx
    rcases createLoop_cdel_sub st.bodyBuilders st [] [] e hx with h | h
    · cases h
    · exact hmem h
  refine ⟨?_, ?_, ?_, ?_, ?_⟩ <;> simp only [create_body_and_collider_system]
  · rw [hconst.2, getC_delAll_not_mem _ _ _ hcdel]
    exact hc
  · exact h3
  · exact h4
  · exact h1
  · exact h2

/-- A tiny concrete world: entity 2 carries only a collider builder. -/
def sampleColliderOnlyState : CreateState Nat Nat :=
  ⟨⟨0, []⟩, ⟨0, []⟩, ⟨[], [], []⟩, [], [(2, 7)], [], []⟩

theorem collider_only_entity_untouched_witness :
    (getC sampleColliderOnlyState.bodyBuilders 2 = none ∧
     getC sampleColliderOnlyState.colliderBuilders 2 = some 7) ∧
    (getC (create_body_and_collider_system sampleColliderOnlyState).colliderBuilders 2
        = some 7 ∧
     getC (create_body_and_collider_system sampleColliderOnlyState).colliderHandles 2
        = getC sampleColliderOnlyState.colliderHandles 2 ∧
     getC (create_body_and_collider_system sampleColliderOnlyState).maps.colliders 2
        = getC sampleColliderOnlyState.maps.colliders 2 ∧
     getC (create_body_and_collider_system sampleColliderOnlyState).bodyHandles 2
        = getC sampleColliderOnlyState.bodyHandles 2 ∧
     getC (create_body_and_collider_system sampleColliderOnlyState).maps.bodies 2
        = getC sampleColliderOnlyState.maps.bodies 2) :=
  ⟨⟨by decide, by decide⟩,
    collider_only_entity_untouched sampleColliderOnlyState 2 7 (by decide)
      (by decide)⟩

/-! ## create_joints_system (`systems.rs` lines 151-185) -/

/-- `JointBuilderComponent` (`components.rs` lines 88-106): joint
parameters plus the two participating entities, referenced by identity. -/
structure JointBuilderComponent (P : Type) where
  params : P
  entity1 : EntityId
  entity2 : EntityId
deriving DecidableEq

/-- `JointHandleComponent` (`components.rs` lines 53-82): the Rapier joint
handle plus both endpoint entity identities. -/
structure JointHandleComponent where
  handle : Nat
  entity1 : EntityId
  entity2 : EntityId
deriving DecidableEq

/-- The views and uniques touched by `create_joints_system`.  The
`&mut bodies` argument only wakes the attached bodies, which is not
observable at this level, so the `RigidBodySet` is omitted;
`bodyHandles` is the read-only `View<RigidBodyHandleComponent>`. -/
structure JointsState (P : Type) where
  joints : JointSet P
  maps : EntityMaps
  jointBuilders : List (EntityId × JointBuilderComponent P)
  jointHandles : List (EntityId × JointHandleComponent)
  bodyHandles : List (EntityId × Nat)

/-- Successful iteration of the joint loop: insert the joint between the
two resolved body handles, attach the `JointHandleComponent`, record the
map entry. -/
def jointPhase {P : Type} (st : JointsState P) (e : EntityId)
    (jb : JointBuilderComponent P) (b1 b2 : Nat) : JointsState P :=
  let hj := st.joints.insert b1 b2 jb.params
  { st with
    joints := hj.2
    jointHandles := addC st.jointHandles e ⟨hj.1, jb.entity1, jb.entity2⟩
    maps := { st.maps with joints := addC st.maps.joints e hj.1 } }

@[simp] theorem jointPhase_bodyHandles {P : Type} (st : JointsState P)
    (e : EntityId) (jb : JointBuilderComponent P) (b1 b2 : Nat) :
    (jointPhase st e jb b1 b2).bodyHandles = st.bodyHandles := rfl

@[simp] theorem jointPhase_jointBuilders {P : Type} (st : JointsState P)
    (e : EntityId) (jb : JointBuilderComponent P) (b1 b2 : Nat) :
    (jointPhase st e jb b1 b2).jointBuilders = st.jointBuilders := rfl

@[simp] theorem jointPhase_jointHandles {P : Type} (st : JointsState P)
    (e : EntityId) (jb : JointBuilderComponent P) (b1 b2 : Nat) :
    (jointPhase st e jb b1 b2).jointHandles
      = addC st.jointHandles e ⟨st.joints.next, jb.entity1, jb.entity2⟩ := rfl

@[simp] theorem jointPhase_mapsJoints {P : Type} (st : JointsState P)
    (e : EntityId) (jb : JointBuilderComponent P) (b1 b2 : Nat) :
    (jointPhase st e jb b1 b2).maps.joints
      = addC st.maps.joints e st.joints.next := rfl

@[simp] theorem jointPhase_joints {P : Type} (st : JointsState P)
    (e : EntityId) (jb : JointBuilderComponent P) (b1 b2 : Nat) :
    (jointPhase st e jb b1 b2).joints
      = ⟨st.joints.next + 1, (st.joints.next, b1, b2, jb.params) :: st.joints.arena⟩ :=
  rfl

/-- The `for (entity_id, joint_builder) in joint_builders.iter().with_id()`
loop: look up the body handle components of both endpoint entities; if
both resolve, create the joint and collect the builder for deletion,
otherwise leave the builder alone. -/
def createJointsLoop {P : Type} :
    List (EntityId × JointBuilderComponent P) → JointsState P →
    List EntityId → JointsState P × List EntityId
  | [], st, del => (st, del)
  | (e, jb) :: rest, st, del =>
    match getC st.bodyHandles jb.entity1, getC st.bodyHandles jb.entity2 with
    | some b1, some b2 => createJointsLoop rest (jointPhase st e jb b1 b2) (del ++ [e])
    | _, _ => createJointsLoop rest st del

/-- `create_joints_system`: run the loop, then delete the collected
builders. -/
def create_joints_system {P : Type} (st : JointsState P) : JointsState P :=
  let r := createJointsLoop st.jointBuilders st []
  { r.1 with jointBuilders := delAll r.1.jointBuilders r.2 }

theorem getC_some_mem {α : Type} (l : List (EntityId × α)) (e : EntityId)
    (v : α) (h : getC l e = some v) : (e, v) ∈ l := by
  induction l with
  | nil => cases h
  | cons p rest ih =>
    by_cases hp : p.1 = e
    · simp only [getC, hp, if_pos] at h
      have hv : p.2 = v := Option.some_inj.mp h
      have hpe : p = (e, v) := by rw [← hp, ← hv]
      rw [← hpe]
      exact List.mem_cons_self p rest
    · simp only [getC, hp, if_neg, Bool.false_eq_true, not_false_iff] at h
      exact List.mem_cons_of_mem _ (ih h)

theorem createJointsLoop_const {P : Type} :
    ∀ (bs : List (EntityId × JointBuilderComponent P)) (st : JointsState P)
      (del : List EntityId),
    (createJointsLoop bs st del).1.bodyHandles = st.bodyHandles ∧
    (createJointsLoop bs st del).1.jointBuilders = st.jointBuilders := by
  intro bs
  induction bs with
  | nil => intro st del; exact ⟨rfl, rfl⟩
  | cons p rest ih =>
    intro st del
    rcases p with ⟨e, jb⟩
    simp only [createJointsLoop]
    cases h1 : getC st.bodyHandles jb.entity1 <;>
      cases h2 : getC st.bodyHandles jb.entity2 <;> simp only
    · exact ih st del
    · exact ih st del
    · exact ih st del
    · rcases ih (jointPhase st e jb _ _) (del ++ [e]) with ⟨g1, g2⟩
      rw [g1, g2]; simp

theorem createJointsLoop_del_sub {P : Type} :
    ∀ (bs : List (EntityId × JointBuilderComponent P)) (st : JointsState P)
      (del : List EntityId) (x : EntityId),
    x ∈ (createJointsLoop bs st del).2 → x ∈ del ∨ x ∈ bs.map Prod.fst := by
  intro bs
  induction bs with
  | nil => intro st del x hx; exact Or.inl hx
  | cons p rest ih =>
    intro st del x hx
    rcases p with ⟨e, jb⟩
    simp only [createJointsLoop] at hx
    cases h1 : getC st.bodyHandles jb.entity1 <;>
      cases h2 : getC st.bodyHandles jb.entity2 <;> simp only [h1, h2] at hx
    · rcases ih st del x hx with h | h
      · exact Or.inl h
      · exact Or.inr (by simp [h])
    · rcases ih st del x hx with h | h
      · exact Or.inl h
      · exact Or.inr (by simp [h])
    · rcases ih st del x hx with h | h
      · exact Or.inl h
      · exact Or.inr (by simp [h])
    · rcases ih (jointPhase st e jb _ _) (del ++ [e]) x hx with h | h
      · rcases List.mem_append.mp h with h | h
        · exact Or.inl h
        · exact Or.inr (by simp [List.mem_singleton.mp h])
      · exact Or.inr (by simp [h])

theorem createJointsLoop_del_mono {P : Type} :
    ∀ (bs : List (EntityId × JointBuilderComponent P)) (st : JointsState P)
      (del : List EntityId) (x : EntityId),
    x ∈ del → x ∈ (createJointsLoop bs st del).2 := by
  intro bs
  induction bs with
  | nil => intro st del x hx; exact hx
  | cons p rest ih =>
    intro st del x hx
    rcases p with ⟨e, jb⟩
    simp only [createJointsLoop]
    cases h1 : getC st.bodyHandles jb.entity1 <;>
      cases h2 : getC st.bodyHandles jb.entity2 <;> simp only
    · exact ih st del x hx
    · exact ih st del x hx
    · exact ih st del x hx
    · exact ih (jointPhase st e jb _ _) (del ++ [e]) x (by simp [hx])

/-- Entities not iterated by the joint loop keep their joint handle
component and map entry. -/
theorem createJointsLoop_untouched {P : Type} :
    ∀ (bs : List (EntityId × JointBuilderComponent P)) (st : JointsState P)
      (del : List EntityId) (e : EntityId),
    e ∉ bs.map Prod.fst →
    getC (createJointsLoop bs st del).1.jointHandles e = getC st.jointHandles e ∧
    getC (createJointsLoop bs st del).1.maps.joints e = getC st.maps.joints e := by
  intro bs
  induction bs with
  | nil => intro st del e _; exact ⟨rfl, rfl⟩
  | cons p rest ih =>
    intro st del e he
    rcases p with ⟨e₁, jb⟩
    have hne : e₁ ≠ e := fun hc => he (by simp [hc])
    have hrest : e ∉ rest.map Prod.fst := fun hm => he (by simp [hm])
    simp only [createJointsLoop]
    cases h1 : getC st.bodyHandles jb.entity1 <;>
      cases h2 : getC st.bodyHandles jb.entity2 <;> simp only
    · exact ih st del e hrest
    · exact ih st del e hrest
    · exact ih st del e hrest
    · rcases ih (jointPhase st e₁ jb _ _) (del ++ [e₁]) e hrest with ⟨g1, g2⟩
      rw [g1, g2]
      simp [getC_addC_ne _ _ _ _ hne]

/-- The joint arena only grows with fresh handles. -/
theorem createJointsLoop_joints_mono {P : Type} :
    ∀ (bs : List (EntityId × JointBuilderComponent P)) (st : JointsState P)
      (del : List EntityId),
    arenaWf st.joints.next st.joints.arena →
    arenaWf (createJointsLoop bs st del).1.joints.next
      (createJointsLoop bs st del).1.joints.arena ∧
    st.joints.next ≤ (createJointsLoop bs st del).1.joints.next ∧
    ∀ jh, jh < st.joints.next →
      getC (createJointsLoop bs st del).1.joints.arena jh
        = getC st.joints.arena jh := by
  intro bs
  induction bs with
  | nil => intro st del hwf; exact ⟨hwf, Nat.le_refl _, fun _ _ => rfl⟩
  | cons p rest ih =>
    intro st del hwf
    rcases p with ⟨e, jb⟩
    simp only [createJointsLoop]
    cases h1 : getC st.bodyHandles jb.entity1 <;>
      cases h2 : getC st.bodyHandles jb.entity2 <;> simp only
    · exact ih st del hwf
    · exact ih st del hwf
    · exact ih st del hwf
    · rename_i b1 b2
      have hwf2 : arenaWf (jointPhase st e jb b1 b2).joints.next
          (jointPhase st e jb b1 b2).joints.arena := by
        simp only [jointPhase_joints]
        intro q hq
        rcases List.mem_cons.mp hq with hq | hq
        · rw [hq]; exact Nat.lt_succ_self _
        · exact Nat.lt_succ_of_lt (hwf q hq)
      rcases ih (jointPhase st e jb b1 b2) (del ++ [e]) hwf2 with ⟨g1, g2, g3⟩
      refine ⟨g1, ?_, ?_⟩
      · refine Nat.le_trans ?_ g2
        simp
      · intro jh hjh
        rw [g3 jh (by simpa using Nat.lt_succ_of_lt hjh)]
        have hne : st.joints.next ≠ jh := Nat.ne_of_gt hjh
        simp [getC, hne]

/-- Progress through the joint loop for an iterated entity whose two
endpoints both resolve to body handle components. -/
theorem createJointsLoop_resolved {P : Type} :
    ∀ (bs : List (EntityId × JointBuilderComponent P)) (st : JointsState P)
      (del : List EntityId) (e : EntityId) (jb : JointBuilderComponent P)
      (b1 b2 : Nat),
    (bs.map Prod.fst).Nodup →
    (e, jb) ∈ bs →
    getC st.bodyHandles jb.entity1 = some b1 →
    getC st.bodyHandles jb.entity2 = some b2 →
    arenaWf st.joints.next st.joints.arena →
    ∃ jh,
      getC (createJointsLoop bs st del).1.jointHandles e
        = some ⟨jh, jb.entity1, jb.entity2⟩ ∧
      getC (createJointsLoop bs st del).1.maps.joints e = some jh ∧
      getC (createJointsLoop bs st del).1.joints.arena jh
        = some (b1, b2, jb.params) ∧
      e ∈ (createJointsLoop bs st del).2 := by
  intro bs
  induction bs with
  | nil => intro st del e jb b1 b2 _ hmem _ _ _; cases hmem
  | cons p rest ih =>
    intro st del e jb b1 b2 hnd hmem h1 h2 hwf
    rcases p with ⟨e₁, jb₁⟩
    simp only [List.map_cons, List.nodup_cons] at hnd
    by_cases he : e₁ = e
    · subst he
      have hjb : jb₁ = jb := by
        rcases List.mem_cons.mp hmem with h | h
        · exact (congrArg Prod.snd h).symm
        · exact absurd (List.mem_map.mpr ⟨(e₁, jb), h, rfl⟩) hnd.1
      subst hjb
      simp only [createJointsLoop, h1, h2]
      have hrest : e₁ ∉ rest.map Prod.fst := hnd.1
      have hwf2 : arenaWf (jointPhase st e₁ jb₁ b1 b2).joints.next
          (jointPhase st e₁ jb₁ b1 b2).joints.arena := by
        simp only [jointPhase_joints]
        intro q hq
        rcases List.mem_cons.mp hq with hq | hq
        · rw [hq]; exact Nat.lt_succ_self _
        · exact Nat.lt_succ_of_lt (hwf q hq)
      rcases createJointsLoop_untouched rest (jointPhase st e₁ jb₁ b1 b2)
          (del ++ [e₁]) e₁ hrest with ⟨g1, g2⟩
      rcases createJointsLoop_joints_mono rest (jointPhase st e₁ jb₁ b1 b2)
          (del ++ [e₁]) hwf2 with ⟨_, _, g3⟩
      refine ⟨st.joints.next, ?_, ?_, ?_, ?_⟩
      · rw [g1]; simp [getC_addC_self]
      · rw [g2]; simp [getC_addC_self]
      · rw [g3 st.joints.next (by simp)]
        simp [getC]
      · exact createJointsLoop_del_mono rest _ _ e₁ (by simp)
    · have hmem' : (e, jb) ∈ rest := by
        rcases List.mem_cons.mp hmem with h | h
        · exact absurd (congrArg Prod.fst h).symm he
        · exact h
      simp only [createJointsLoop]
      cases hg1 : getC st.bodyHandles jb₁.entity1 <;>
        cases hg2 : getC st.bodyHandles jb₁.entity2 <;> simp only
      · exact ih st del e jb b1 b2 hnd.2 hmem' h1 h2 hwf
      · exact ih st del e jb b1 b2 hnd.2 hmem' h1 h2 hwf
      · exact ih st del e jb b1 b2 hnd.2 hmem' h1 h2 hwf
      · exact ih (jointPhase st e₁ jb₁ _ _) (del ++ [e₁]) e jb b1 b2 hnd.2
          hmem' (by simpa using h1) (by simpa using h2)
          (by
            simp only [jointPhase_joints]
            intro q hq
            rcases List.mem_cons.mp hq with hq | hq
            · rw [hq]; exact Nat.lt_succ_self _
            · exact Nat.lt_succ_of_lt (hwf q hq))

/-- An iterated entity with an unresolved endpoint is skipped entirely:
nothing of it changes and it is not collected for deletion. -/
theorem createJointsLoop_unresolved {P : Type} :
    ∀ (bs : List (EntityId × JointBuilderComponent P)) (st : JointsState P)
      (del : List EntityId) (e : EntityId) (jb : JointBuilderComponent P),
    (bs.map Prod.fst).Nodup →
    (e, jb) ∈ bs →
    e ∉ del →
    (getC st.bodyHandles jb.entity1 = none ∨
      getC st.bodyHandles jb.entity2 = none) →
    getC (createJointsLoop bs st del).1.jointHandles e = getC st.jointHandles e ∧
    getC (createJointsLoop bs st del).1.maps.joints e = getC st.maps.joints e ∧
    e ∉ (createJointsLoop bs st del).2 := by
  intro bs
  induction bs with
  | nil => intro st del e jb _ hmem _ _; cases hmem
  | cons p rest ih =>
    intro st del e jb hnd hmem hdel hunres
    rcases p with ⟨e₁, jb₁⟩
    simp only [List.map_cons, List.nodup_cons] at hnd
    by_cases he : e₁ = e
    · subst he
      have hjb : jb₁ = jb := by
        rcases List.mem_cons.mp hmem with h | h
        · exact (congrArg Prod.snd h).symm
        · exact absurd (List.mem_map.mpr ⟨(e₁, jb), h, rfl⟩) hnd.1
      subst hjb
      have hrest : e₁ ∉ rest.map Prod.fst := hnd.1
      have hskip : createJointsLoop ((e₁, jb₁) :: rest) st del
          = createJointsLoop rest st del := by
        cases hh1 : getC st.bodyHandles jb₁.entity1 <;>
          cases hh2 : getC st.bodyHandles jb₁.entity2 <;>
          simp only [createJointsLoop, hh1, hh2]
        exfalso
        rcases hunres with h | h
        · rw [h] at hh1; cases hh1
        · rw [h] at hh2; cases hh2
      rw [hskip]
      rcases createJointsLoop_untouched rest st del e₁ hrest with ⟨g1, g2⟩
      refine ⟨g1, g2, ?_⟩
      intro hx
      rcases createJointsLoop_del_sub rest st del e₁ hx with h | h
      · exact hdel h
      · exact hrest h
    · have hmem' : (e, jb) ∈ rest := by
        rcases List.mem_cons.mp hmem with h | h
        · exact absurd (congrArg Prod.fst h).symm he
        · exact h
      simp only [createJointsLoop]
      cases hg1 : getC st.bodyHandles jb₁.entity1 <;>
        cases hg2 : getC st.bodyHandles jb₁.entity2 <;> simp only
      · exact ih st del e jb hnd.2 hmem' hdel hunres
      · exact ih st del e jb hnd.2 hmem' hdel hunres
      · exact ih st del e jb hnd.2 hmem' hdel hunres
      · rename_i b1 b2
        have hx : e ∉ del ++ [e₁] := by
          intro hx
          rcases List.mem_append.mp hx with h | h
          · exact hdel h
          · exact he (List.mem_singleton.mp h).symm
        rcases ih (jointPhase st e₁ jb₁ b1 b2) (del ++ [e₁]) e jb hnd.2 hmem'
          hx (by simpa using hunres) with ⟨g1, g2, g3⟩
        refine ⟨?_, ?_, g3⟩
        · rw [g1]; simp [getC_addC_ne _ _ _ _ he]
        · rw [g2]; simp [getC_addC_ne _ _ _ _ he]

/-- C2.  An entity with a joint builder gets a joint, a joint handle
component recording handle and both endpoint identities, and a map entry,
with the builder deleted, exactly when both endpoint entities hold body
handle components; otherwise the builder stays untouched and nothing is
created for it. -/
theorem create_joints_iff {P : Type} (st : JointsState P) (e : EntityId)
    (jb : JointBuilderComponent P)
    (hnodup : (st.jointBuilders.map Prod.fst).Nodup)
    (hwf : arenaWf st.joints.next st.joints.arena)
    (hjb : getC st.jointBuilders e = some jb) :
    (∀ b1 b2, getC st.bodyHandles jb.entity1 = some b1 →
      getC st.bodyHandles jb.entity2 = some b2 →
      ∃ jh,
        getC (create_joints_system st).jointHandles e
          = some ⟨jh, jb.entity1, jb.entity2⟩ ∧
        getC (create_joints_system st).maps.joints e = some jh ∧
        getC (create_joints_system st).joints.arena jh
          = some (b1, b2, jb.params) ∧
        getC (create_joints_system st).jointBuilders e = none) ∧
    ((getC st.bodyHandles jb.entity1 = none ∨
        getC st.bodyHandles jb.entity2 = none) →
      getC (create_joints_system st).jointBuilders e = some jb ∧
      getC (create_joints_system st).jointHandles e = getC st.jointHandles e ∧
      getC (create_joints_system st).maps.joints e = getC st.maps.joints e) := by
  have hmem : (e, jb) ∈ st.jointBuilders := getC_some_mem _ _ _ hjb
  have hconst := createJointsLoop_const st.jointBuilders st []
  constructor
  · intro b1 b2 h1 h2
    rcases createJointsLoop_resolved st.jointBuilders st [] e jb b1 b2 hnodup
      hmem h1 h2 hwf with ⟨jh, g1, g2, g3, g4⟩
    refine ⟨jh, ?_, ?_, ?_, ?_⟩ <;> simp only [create_joints_system]
    · exact g1
    · exact g2
    · exact g3
    · rw [hconst.2]
      exact getC_delAll_mem _ _ _ g4
  · intro hunres
    rcases createJointsLoop_unresolved st.jointBuilders st [] e jb hnodup hmem
      (List.not_mem_nil e) hunres with ⟨g1, g2, g3⟩
    refine ⟨?_, ?_, ?_⟩ <;> simp only [create_joints_system]
    · rw [hconst.2, getC_delAll_not_mem _ _ _ g3]
      exact hjb
    · exact g1
    · exact g2

/-- A tiny concrete world for the joint system: entities 1 and 2 hold
body handles 0 and 1, entity 3 stages a joint between them, entity 4
stages a joint with a dangling endpoint. -/
def sampleJointsState : JointsState Nat :=
  ⟨⟨0, []⟩, ⟨[], [], []⟩, [(3, ⟨5, 1, 2⟩), (4, ⟨6, 1, 9⟩)], [],
    [(1, 0), (2, 1)]⟩

theorem create_joints_iff_witness :
    ((sampleJointsState.jointBuilders.map Prod.fst).Nodup ∧
     getC sampleJointsState.jointBuilders 3 = some ⟨5, 1, 2⟩) ∧
    ((∀ b1 b2, getC sampleJointsState.bodyHandles 1 = some b1 →
      getC sampleJointsState.bodyHandles 2 = some b2 →
      ∃ jh,
        getC (create_joints_system sampleJointsState).jointHandles 3
          = some ⟨jh, 1, 2⟩ ∧
        getC (create_joints_system sampleJointsState).maps.joints 3 = some jh ∧
        getC (create_joints_system sampleJointsState).joints.arena jh
          = some (b1, b2, 5) ∧
        getC (create_joints_system sampleJointsState).jointBuilders 3 = none) ∧
     ((getC sampleJointsState.bodyHandles 1 = none ∨
        getC sampleJointsState.bodyHandles 2 = none) →
      getC (create_joints_system sampleJointsState).jointBuilders 3
        = some ⟨5, 1, 2⟩ ∧
      getC (create_joints_system sampleJointsState).jointHandles 3
        = getC sampleJointsState.jointHandles 3 ∧
      getC (create_joints_system sampleJointsState).maps.joints 3
        = getC sampleJointsState.maps.joints 3)) :=
  ⟨⟨by decide, by decide⟩,
    create_joints_iff sampleJointsState 3 ⟨5, 1, 2⟩ (by decide)
      (fun p hp => absurd hp (List.not_mem_nil p)) (by decide)⟩

/-! ## step_world_system (`systems.rs` lines 188-267)

The accumulator arithmetic is embedded over `Rat` (the Rust code uses
`f32`; the claims concern the exact-arithmetic content of the algorithm).
The Rapier pipeline, the query pipeline and body positions are external
collaborators, bundled in an abstract `Engine` record; gravity, the
integration parameters other than `dt`, the broad/narrow phases and the
interaction-pair filters are fixed context captured inside the record's
functions.  `PhysicsPipeline::step` advances the simulation by the `dt`
stored in the `IntegrationParameters` passed to it, which the system
passes unchanged. -/

/-- The external physics engine: one pipeline step over the body/collider/
joint sets (`stepW`), the contact and intersection events a step appends to
the queue, body positions (for interpolation snapshots), and the query
pipeline update.  `W` is the engine-owned mutable state, `Q` the query
pipeline, `P` the position (isometry) type, `E1`/`E2` the event types. -/
structure Engine (W Q P E1 E2 : Type) where
  stepW : Rat → W → W
  contactEventsOf : Rat → W → List E1
  intersectionEventsOf : Rat → W → List E2
  posOf : W → Nat → Option P
  updateQuery : W → Q → Q

/-- Observable actions of one run of the stepping system, in order. -/
inductive Action where
  | clearEvents : Action
  | snapshot : Action
  | pipelineStep : Rat → Action
  | queryUpdate : Action
deriving DecidableEq

/-- The state touched by `step_world_system`: the accumulator
(`SimulationToRenderTime.diff`), the engine state, the query pipeline, the
event queue (`auto_clear` flag and the two event sequences, declared in
the physics module but absent from `src/`; the spec fixes them as two
ordered sequences emptied by `clear`), the
`View<RigidBodyHandleComponent>` and `ViewMut<PhysicsInterpolationComponent>`
storages, and a log of the actions performed. -/
structure StepState (W Q P E1 E2 : Type) where
  diff : Rat
  world : W
  query : Q
  auto_clear : Bool
  contactEvents : List E1
  intersectionEvents : List E2
  bodyHandles : List (EntityId × Nat)
  interp : List (EntityId × Option P)
  log : List Action

/-- `RapierConfiguration` (declared in the physics module but absent from
`src/`; `systems.rs` reads exactly these three flags, plus the gravity
vector which is captured inside `Engine.stepW`). -/
structure RapierConfiguration where
  time_dependent_number_of_timesteps : Bool
  physics_pipeline_active : Bool
  query_pipeline_active : Bool
deriving DecidableEq

/-- `rapier::dynamics::IntegrationParameters`, reduced to the only field
the system reads: the fixed timestep `dt`. -/
structure IntegrationParameters where
  dt : Rat
deriving DecidableEq

/-- The interpolation snapshot (`systems.rs` lines 226-232): for every
entity with both a `RigidBodyHandleComponent` and a
`PhysicsInterpolationComponent`, if the body still exists, store its
current position in the interpolation component. -/
def snapshotInterp {W Q P E1 E2 : Type} (eng : Engine W Q P E1 E2) (w : W)
    (bodyHandles : List (EntityId × Nat)) (interp : List (EntityId × Option P)) :
    List (EntityId × Option P) :=
  interp.map fun q =>
    match getC bodyHandles q.1 with
    | some bh =>
      match eng.posOf w bh with
      | some pos => (q.1, some pos)
      | none => q
    | none => q

/-- One `pipeline.step(...)` call: advance the engine state by `h` and
append the produced contact/intersection events to the queue. -/
def pipelineStepState {W Q P E1 E2 : Type} (eng : Engine W Q P E1 E2)
    (h : Rat) (s : StepState W Q P E1 E2) : StepState W Q P E1 E2 :=
  { s with
    world := eng.stepW h s.world
    contactEvents := s.contactEvents ++ eng.contactEventsOf h s.world
    intersectionEvents := s.intersectionEvents ++ eng.intersectionEventsOf h s.world
    log := s.log ++ [Action.pipelineStep h] }

/-- Writing the interpolation snapshot into the component storage. -/
def snapshotState {W Q P E1 E2 : Type} (eng : Engine W Q P E1 E2)
    (s : StepState W Q P E1 E2) : StepState W Q P E1 E2 :=
  { s with
    interp := snapshotInterp eng s.world s.bodyHandles s.interp
    log := s.log ++ [Action.snapshot] }

/-- The `while sim_to_render_time.diff >= sim_dt` loop (`systems.rs` lines
217-248).  When `0 < h` the Rust loop performs exactly `⌊diff / h⌋`
iterations (proved below), which the embedding uses as structural fuel;
the loop guard is still re-checked every iteration.  On each iteration:
if the pipeline is active, snapshot the transforms when
`diff - h < h` (the last iteration), then step the pipeline; finally
subtract `h` from the accumulator. -/
def stepLoop {W Q P E1 E2 : Type} (eng : Engine W Q P E1 E2)
    (cfg : RapierConfiguration) (h : Rat) :
    Nat → StepState W Q P E1 E2 → StepState W Q P E1 E2
  | 0, s => s
  | fuel + 1, s =>
    if h ≤ s.diff then
      let s1 :=
        if cfg.physics_pipeline_active then
          pipelineStepState eng h (if s.diff - h < h then snapshotState eng s else s)
        else s
      stepLoop eng cfg h fuel { s1 with diff := s1.diff - h }
    else s

/-- Clearing the event queue at the start of the step when auto-clear is
enabled (`systems.rs` lines 209-211). -/
def autoClearState {W Q P E1 E2 : Type} (s : StepState W Q P E1 E2) :
    StepState W Q P E1 E2 :=
  if s.auto_clear then
    { s with
      contactEvents := []
      intersectionEvents := []
      log := s.log ++ [Action.clearEvents] }
  else s

/-- `step_world_system`: clear events if auto-clear is on; in
fixed-timestep mode add the frame delta to the accumulator and run the
sub-step loop; in variable mode run exactly one pipeline step (with the
unchanged integration parameters); finally update the query pipeline if
active. -/
def step_world_system {W Q P E1 E2 : Type} (eng : Engine W Q P E1 E2)
    (cfg : RapierConfiguration) (ip : IntegrationParameters)
    (delta_seconds : Rat) (s0 : StepState W Q P E1 E2) :
    StepState W Q P E1 E2 :=
  let s := autoClearState s0
  let s2 :=
    if cfg.time_dependent_number_of_timesteps then
      let sa := { s with diff := s.diff + delta_seconds }
      stepLoop eng cfg ip.dt (Int.floor (sa.diff / ip.dt)).toNat sa
    else if cfg.physics_pipeline_active then
      pipelineStepState eng ip.dt s
    else s
  if cfg.query_pipeline_active then
    { s2 with
      query := eng.updateQuery s2.world s2.query
      log := s2.log ++ [Action.queryUpdate] }
  else s2

/-- `n` pipeline steps of size `h`, first step innermost. -/
def iterStep {W Q P E1 E2 : Type} (eng : Engine W Q P E1 E2) (h : Rat) :
    Nat → W → W
  | 0, w => w
  | n + 1, w => iterStep eng h n (eng.stepW h w)

/-- The contact events appended by `n` consecutive pipeline steps from
state `w`. -/
def producedContacts {W Q P E1 E2 : Type} (eng : Engine W Q P E1 E2)
    (h : Rat) : Nat → W → List E1
  | 0, _ => []
  | n + 1, w => eng.contactEventsOf h w ++ producedContacts eng h n (eng.stepW h w)

/-- The intersection events appended by `n` consecutive pipeline steps. -/
def producedIntersections {W Q P E1 E2 : Type} (eng : Engine W Q P E1 E2)
    (h : Rat) : Nat → W → List E2
  | 0, _ => []
  | n + 1, w => eng.intersectionEventsOf h w ++ producedIntersections eng h n (eng.stepW h w)

/-- The action log of `n` active sub-steps: plain pipeline steps, with a
single interpolation snapshot immediately before the last one. -/
def stepLogs (h : Rat) : Nat → List Action
  | 0 => []
  | 1 => [Action.snapshot, Action.pipelineStep h]
  | n + 2 => Action.pipelineStep h :: stepLogs h (n + 1)

/-- Number of pipeline steps recorded in a log. -/
def pipeCount (l : List Action) : Nat :=
  (l.filter fun a =>
    match a with
    | Action.pipelineStep _ => true
    | _ => false).length

/-- Feeding a sequence of frame deltas to the stepping system. -/
def runFrames {W Q P E1 E2 : Type} (eng : Engine W Q P E1 E2)
    (cfg : RapierConfiguration) (ip : IntegrationParameters)
    (dts : List Rat) (s : StepState W Q P E1 E2) : StepState W Q P E1 E2 :=
  dts.foldl (fun s' dt => step_world_system eng cfg ip dt s') s

section StepLemmas

variable {W Q P E1 E2 : Type}

theorem le_of_one_le_floor_div {x h : Rat} (hpos : 0 < h)
    (hf : (1 : Int) ≤ Int.floor (x / h)) : h ≤ x := by
  have h1 : (1 : Rat) ≤ x / h := by exact_mod_cast Int.le_floor.mp hf
  exact (one_le_div hpos).mp h1

theorem lt_of_floor_div_lt {x h : Rat} {z : Int} (hpos : 0 < h)
    (hf : Int.floor (x / h) < z) : x < z * h := by
  have h1 : x / h < (z : Rat) := Int.floor_lt.mp hf
  exact (div_lt_iff₀ hpos).mp h1

theorem le_of_le_floor_div {x h : Rat} {z : Int} (hpos : 0 < h)
    (hf : z ≤ Int.floor (x / h)) : (z : Rat) * h ≤ x := by
  have h1 : (z : Rat) ≤ x / h := by exact_mod_cast Int.le_floor.mp hf
  exact (le_div_iff₀ hpos).mp h1

theorem floor_div_sub_one {x h : Rat} (hpos : 0 < h) :
    Int.floor ((x - h) / h) = Int.floor (x / h) - 1 := by
  have hx : (x - h) / h = x / h - 1 := by
    field_simp
  rw [hx, show (1 : Rat) = ((1 : Int) : Rat) by norm_num, Int.floor_sub_int]

/-- Closed form of the sub-step loop when the pipeline is active and the
fuel equals the number of iterations `⌊diff / h⌋` the Rust `while` loop
performs: the accumulator is drained, the engine advances one step per
iteration appending its events, and the interpolation snapshot is taken
exactly once, at the current state just before the last step. -/
theorem stepLoop_spec_active (eng : Engine W Q P E1 E2)
    (cfg : RapierConfiguration) (h : Rat)
    (hact : cfg.physics_pipeline_active = true) (hpos : 0 < h) :
    ∀ (n : Nat) (s : StepState W Q P E1 E2),
    (n : Int) = Int.floor (s.diff / h) →
    stepLoop eng cfg h n s =
      { diff := s.diff - n * h
        world := iterStep eng h n s.world
        query := s.query
        auto_clear := s.auto_clear
        contactEvents := s.contactEvents ++ producedContacts eng h n s.world
        intersectionEvents :=
          s.intersectionEvents ++ producedIntersections eng h n s.world
        bodyHandles := s.bodyHandles
        interp :=
          if n = 0 then s.interp
          else snapshotInterp eng (iterStep eng h (n - 1) s.world)
            s.bodyHandles s.interp
        log := s.log ++ stepLogs h n } := by
  intro n
  induction n with
  | zero =>
    intro s _
    simp only [stepLoop]
    cases s
    simp [iterStep, producedContacts, producedIntersections, stepLogs]
  | succ n ih =>
    intro s hn
    have hge : h ≤ s.diff :=
      le_of_one_le_floor_div hpos (by omega)
    simp only [stepLoop]
    rw [if_pos hge]
    simp only [hact, if_true]
    cases n with
    | zero =>
      have hlast : s.diff - h < h := by
        have h2 : Int.floor (s.diff / h) < 2 := by omega
        have := lt_of_floor_div_lt hpos h2
        have h2h : s.diff < h + h := by
          push_cast at this
          linarith
        linarith
      rw [if_pos hlast]
      simp only [stepLoop]
      cases s
      simp only [pipelineStepState, snapshotState, snapshotInterp]
      simp [iterStep, producedContacts, producedIntersections, stepLogs]
    | succ m =>
      have hnolast : ¬ s.diff - h < h := by
        have h2 : (2 : Int) ≤ Int.floor (s.diff / h) := by omega
        have := le_of_le_floor_div hpos h2
        push_cast at this
        push_neg
        linarith
      rw [if_neg hnolast]
      have hfl : ((m + 1 : Nat) : Int)
          = Int.floor (((pipelineStepState eng h s).diff - h) / h) := by
        have hpd : (pipelineStepState eng h s).diff = s.diff := rfl
        rw [hpd, floor_div_sub_one hpos]
        omega
      rw [ih _ hfl]
      cases s
      simp only [pipelineStepState]
      simp [StepState.mk.injEq, producedContacts, producedIntersections,
        iterStep, stepLogs]
      ring

/-- Closed form of the sub-step loop when the pipeline is inactive: the
accumulator is drained and nothing else happens. -/
theorem stepLoop_spec_inactive (eng : Engine W Q P E1 E2)
    (cfg : RapierConfiguration) (h : Rat)
    (hact : cfg.physics_pipeline_active = false) (hpos : 0 < h) :
    ∀ (n : Nat) (s : StepState W Q P E1 E2),
    (n : Int) = Int.floor (s.diff / h) →
    stepLoop eng cfg h n s = { s with diff := s.diff - n * h } := by
  intro n
  induction n with
  | zero =>
    intro s _
    simp only [stepLoop]
    cases s
    simp
  | succ n ih =>
    intro s hn
    have hge : h ≤ s.diff :=
      le_of_one_le_floor_div hpos (by omega)
    simp only [stepLoop]
    rw [if_pos hge]
    simp only [hact, Bool.false_eq_true, if_false]
    have hfl : ((n : Nat) : Int) = Int.floor ((s.diff - h) / h) := by
      rw [floor_div_sub_one hpos]
      omega
    rw [ih _ hfl]
    cases s
    simp [StepState.mk.injEq]
    ring

/-- Number of sub-steps a frame performs: `⌊d / h⌋` for accumulator value
`d` after adding the frame delta. -/
def subSteps (h d : Rat) : Nat := (Int.floor (d / h)).toNat

def clearLog (b : Bool) : List Action :=
  if b then [Action.clearEvents] else []

def queryLog (b : Bool) : List Action :=
  if b then [Action.queryUpdate] else []

/-- Closed form of one frame of `step_world_system` in fixed-timestep mode
with the pipeline active. -/
theorem frame_fixed_active (eng : Engine W Q P E1 E2)
    (cfg : RapierConfiguration) (ip : IntegrationParameters) (dt : Rat)
    (s : StepState W Q P E1 E2)
    (hfix : cfg.time_dependent_number_of_timesteps = true)
    (hact : cfg.physics_pipeline_active = true)
    (hpos : 0 < ip.dt) (hnn : 0 ≤ s.diff + dt) :
    step_world_system eng cfg ip dt s =
      { diff := (s.diff + dt) - subSteps ip.dt (s.diff + dt) * ip.dt
        world := iterStep eng ip.dt (subSteps ip.dt (s.diff + dt)) s.world
        query :=
          if cfg.query_pipeline_active then
            eng.updateQuery
              (iterStep eng ip.dt (subSteps ip.dt (s.diff + dt)) s.world) s.query
          else s.query
        auto_clear := s.auto_clear
        contactEvents :=
          (if s.auto_clear then [] else s.contactEvents) ++
            producedContacts eng ip.dt (subSteps ip.dt (s.diff + dt)) s.world
        intersectionEvents :=
          (if s.auto_clear then [] else s.intersectionEvents) ++
            producedIntersections eng ip.dt (subSteps ip.dt (s.diff + dt)) s.world
        bodyHandles := s.bodyHandles
        interp :=
          if subSteps ip.dt (s.diff + dt) = 0 then s.interp
          else snapshotInterp eng
            (iterStep eng ip.dt (subSteps ip.dt (s.diff + dt) - 1) s.world)
            s.bodyHandles s.interp
        log := s.log ++ clearLog s.auto_clear ++
          stepLogs ip.dt (subSteps ip.dt (s.diff + dt)) ++
          queryLog cfg.query_pipeline_active } := by
  have hflo : (0 : Int) ≤ Int.floor ((s.diff + dt) / ip.dt) :=
    Int.floor_nonneg.mpr (div_nonneg hnn hpos.le)
  unfold step_world_system
  by_cases hc : s.auto_clear <;> by_cases hq : cfg.query_pipeline_active <;>
    simp only [autoClearState, hc, hq, hfix, hact, if_true, if_false,
      Bool.false_eq_true, clearLog, queryLog] <;>
    rw [stepLoop_spec_active eng cfg ip.dt hact hpos
      (Int.floor ((s.diff + dt) / ip.dt)).toNat _ (by simpa using hflo)] <;>
    cases s <;>
    simp_all [subSteps]

/-- Closed form of one frame of `step_world_system` in fixed-timestep mode
with the pipeline inactive: the accumulator is drained, events are
cleared when auto-clear is on, and nothing else changes except the query
pipeline update. -/
theorem frame_fixed_inactive (eng : Engine W Q P E1 E2)
    (cfg : RapierConfiguration) (ip : IntegrationParameters) (dt : Rat)
    (s : StepState W Q P E1 E2)
    (hfix : cfg.time_dependent_number_of_timesteps = true)
    (hact : cfg.physics_pipeline_active = false)
    (hpos : 0 < ip.dt) (hnn : 0 ≤ s.diff + dt) :
    step_world_system eng cfg ip dt s =
      { diff := (s.diff + dt) - subSteps ip.dt (s.diff + dt) * ip.dt
        world := s.world
        query :=
          if cfg.query_pipeline_active then eng.updateQuery s.world s.query
          else s.query
        auto_clear := s.auto_clear
        contactEvents := if s.auto_clear then [] else s.contactEvents
        intersectionEvents := if s.auto_clear then [] else s.intersectionEvents
        bodyHandles := s.bodyHandles
        interp := s.interp
        log := s.log ++ clearLog s.auto_clear ++
          queryLog cfg.query_pipeline_active } := by
  have hflo : (0 : Int) ≤ Int.floor ((s.diff + dt) / ip.dt) :=
    Int.floor_nonneg.mpr (div_nonneg hnn hpos.le)
  unfold step_world_system
  by_cases hc : s.auto_clear <;> by_cases hq : cfg.query_pipeline_active <;>
    simp only [autoClearState, hc, hq, hfix, hact, if_true, if_false,
      Bool.false_eq_true, clearLog, queryLog] <;>
    rw [stepLoop_spec_inactive eng cfg ip.dt hact hpos
      (Int.floor ((s.diff + dt) / ip.dt)).toNat _ (by simpa using hflo)] <;>
    cases s <;>
    simp_all [subSteps]

/-- After draining, the remainder `d - ⌊d/h⌋·h` lies in `[0, h)`. -/
theorem drained_diff_bounds (h x : Rat) (hpos : 0 < h) (hx : 0 ≤ x) :
    0 ≤ x - (subSteps h x : Rat) * h ∧ x - (subSteps h x : Rat) * h < h := by
  have hc : ((subSteps h x : Nat) : Rat) = ((Int.floor (x / h) : Int) : Rat) := by
    rw [subSteps]
    exact_mod_cast congrArg Int.cast
      (Int.toNat_of_nonneg (Int.floor_nonneg.mpr (div_nonneg hx hpos.le)))
  rw [hc]
  exact ⟨Int.sub_floor_div_mul_nonneg x hpos, Int.sub_floor_div_mul_lt x hpos⟩

/-- C4.  In fixed-timestep mode, a frame with nonnegative delta maps an
accumulator in `[0, step_size)` back into `[0, step_size)`. -/
theorem accumulator_invariant (eng : Engine W Q P E1 E2)
    (cfg : RapierConfiguration) (ip : IntegrationParameters) (dt : Rat)
    (s : StepState W Q P E1 E2)
    (hfix : cfg.time_dependent_number_of_timesteps = true)
    (hdt : 0 ≤ dt) (h0 : 0 ≤ s.diff) (h1 : s.diff < ip.dt) :
    0 ≤ (step_world_system eng cfg ip dt s).diff ∧
    (step_world_system eng cfg ip dt s).diff < ip.dt := by
  have hpos : 0 < ip.dt := lt_of_le_of_lt h0 h1
  have hnn : 0 ≤ s.diff + dt := by linarith
  have hdiff : (step_world_system eng cfg ip dt s).diff
      = (s.diff + dt) - subSteps ip.dt (s.diff + dt) * ip.dt := by
    cases hact : cfg.physics_pipeline_active
    · rw [frame_fixed_inactive eng cfg ip dt s hfix hact hpos hnn]
    · rw [frame_fixed_active eng cfg ip dt s hfix hact hpos hnn]
  rw [hdiff]
  exact drained_diff_bounds ip.dt (s.diff + dt) hpos hnn

end StepLemmas

/-- Trivial engine over unit types, for concrete witnesses. -/
def unitEngine : Engine Unit Unit Unit Unit Unit :=
  ⟨fun _ w => w, fun _ _ => [], fun _ _ => [], fun _ _ => none, fun _ q => q⟩

/-- Fixed-timestep configuration with everything active. -/
def sampleCfgFixed : RapierConfiguration := ⟨true, true, true⟩

/-- Fixed-timestep configuration with the physics pipeline paused. -/
def sampleCfgPaused : RapierConfiguration := ⟨true, false, false⟩

/-- Variable-timestep configuration with the pipeline active. -/
def sampleCfgVariable : RapierConfiguration := ⟨false, true, false⟩

/-- A fresh stepping state with empty queues and zero accumulator. -/
def sampleStepState : StepState Unit Unit Unit Unit Unit :=
  ⟨0, (), (), true, [], [], [], [], []⟩

theorem accumulator_invariant_witness :
    (sampleCfgFixed.time_dependent_number_of_timesteps = true ∧
     (0 : Rat) ≤ 1/30 ∧ 0 ≤ sampleStepState.diff ∧
     sampleStepState.diff < (1 : Rat)/60) ∧
    (0 ≤ (step_world_system unitEngine sampleCfgFixed ⟨1/60⟩ (1/30)
        sampleStepState).diff ∧
     (step_world_system unitEngine sampleCfgFixed ⟨1/60⟩ (1/30)
        sampleStepState).diff < (1 : Rat)/60) :=
  ⟨⟨rfl, by norm_num, by norm_num [sampleStepState], by norm_num [sampleStepState]⟩,
    accumulator_invariant unitEngine sampleCfgFixed ⟨1/60⟩ (1/30)
      sampleStepState rfl (by norm_num) (by norm_num [sampleStepState])
      (by norm_num [sampleStepState])⟩

section StepTheorems

variable {W Q P E1 E2 : Type}

/-- C10.  In fixed-timestep mode with the pipeline inactive, the frame
still drains the accumulator to a remainder below the step size, while
stepping nothing: the engine state, interpolation components and (up to
the auto-clear) the event queues are untouched, and the log records no
pipeline step and no snapshot. -/
theorem paused_pipeline_drains (eng : Engine W Q P E1 E2)
    (cfg : RapierConfiguration) (ip : IntegrationParameters) (dt : Rat)
    (s : StepState W Q P E1 E2)
    (hfix : cfg.time_dependent_number_of_timesteps = true)
    (hact : cfg.physics_pipeline_active = false)
    (hpos : 0 < ip.dt) (h0 : 0 ≤ s.diff) (hdt : 0 ≤ dt) :
    (step_world_system eng cfg ip dt s).diff
      = (s.diff + dt) - subSteps ip.dt (s.diff + dt) * ip.dt ∧
    0 ≤ (step_world_system eng cfg ip dt s).diff ∧
    (step_world_system eng cfg ip dt s).diff < ip.dt ∧
    (step_world_system eng cfg ip dt s).world = s.world ∧
    (step_world_system eng cfg ip dt s).interp = s.interp ∧
    (step_world_system eng cfg ip dt s).contactEvents
      = (if s.auto_clear then [] else s.contactEvents) ∧
    (step_world_system eng cfg ip dt s).intersectionEvents
      = (if s.auto_clear then [] else s.intersectionEvents) ∧
    (step_world_system eng cfg ip dt s).log
      = s.log ++ clearLog s.auto_clear ++ queryLog cfg.query_pipeline_active := by
  have hnn : 0 ≤ s.diff + dt := by linarith
  have hb := drained_diff_bounds ip.dt (s.diff + dt) hpos hnn
  rw [frame_fixed_inactive eng cfg ip dt s hfix hact hpos hnn]
  exact ⟨rfl, hb.1, hb.2, rfl, rfl, rfl, rfl, rfl⟩

end StepTheorems

theorem paused_pipeline_drains_witness :
    (sampleCfgPaused.time_dependent_number_of_timesteps = true ∧
     sampleCfgPaused.physics_pipeline_active = false ∧
     (0 : Rat) < 1/60 ∧ 0 ≤ sampleStepState.diff ∧ (0 : Rat) ≤ 1/20) ∧
    ((step_world_system unitEngine sampleCfgPaused ⟨1/60⟩ (1/20)
        sampleStepState).diff
      = (sampleStepState.diff + 1/20) -
          subSteps ((1:Rat)/60) (sampleStepState.diff + 1/20) * (1/60) ∧
     0 ≤ (step_world_system unitEngine sampleCfgPaused ⟨1/60⟩ (1/20)
        sampleStepState).diff ∧
     (step_world_system unitEngine sampleCfgPaused ⟨1/60⟩ (1/20)
        sampleStepState).diff < (1:Rat)/60 ∧
     (step_world_system unitEngine sampleCfgPaused ⟨1/60⟩ (1/20)
        sampleStepState).world = sampleStepState.world ∧
     (step_world_system unitEngine sampleCfgPaused ⟨1/60⟩ (1/20)
        sampleStepState).interp = sampleStepState.interp ∧
     (step_world_system unitEngine sampleCfgPaused ⟨1/60⟩ (1/20)
        sampleStepState).contactEvents
      = (if sampleStepState.auto_clear then [] else sampleStepState.contactEvents) ∧
     (step_world_system unitEngine sampleCfgPaused ⟨1/60⟩ (1/20)
        sampleStepState).intersectionEvents
      = (if sampleStepState.auto_clear then [] else sampleStepState.intersectionEvents) ∧
     (step_world_system unitEngine sampleCfgPaused ⟨1/60⟩ (1/20)
        sampleStepState).log
      = sampleStepState.log ++ clearLog sampleStepState.auto_clear ++
          queryLog sampleCfgPaused.query_pipeline_active) :=
  ⟨⟨rfl, rfl, by norm_num, by norm_num [sampleStepState], by norm_num⟩,
    paused_pipeline_drains unitEngine sampleCfgPaused ⟨1/60⟩ (1/20)
      sampleStepState rfl rfl (by norm_num) (by norm_num [sampleStepState])
      (by norm_num)⟩

theorem stepLogs_eq (h : Rat) :
    ∀ n : Nat, stepLogs h n =
      if n = 0 then []
      else List.replicate (n - 1) (Action.pipelineStep h) ++
        [Action.snapshot, Action.pipelineStep h] := by
  intro n
  induction n with
  | zero => rfl
  | succ m ih =>
    cases m with
    | zero => rfl
    | succ k =>
      rw [show stepLogs h (k + 2) = Action.pipelineStep h :: stepLogs h (k + 1)
        from rfl, ih]
      simp [List.replicate_succ]

section SnapshotTheorem

variable {W Q P E1 E2 : Type}

/-- C8.  In fixed-timestep mode with the pipeline active, the frame's log
is: the optional clear, then `n - 1` plain pipeline steps, then a single
snapshot immediately followed by the last pipeline step (no snapshot at
all when no sub-step runs), and the snapshot written is of the transforms
after `n - 1` sub-steps, i.e. of the state just before the last
sub-step. -/
theorem interpolation_snapshot_last_substep (eng : Engine W Q P E1 E2)
    (cfg : RapierConfiguration) (ip : IntegrationParameters) (dt : Rat)
    (s : StepState W Q P E1 E2)
    (hfix : cfg.time_dependent_number_of_timesteps = true)
    (hact : cfg.physics_pipeline_active = true)
    (hpos : 0 < ip.dt) (hnn : 0 ≤ s.diff + dt) :
    (step_world_system eng cfg ip dt s).log
      = s.log ++ clearLog s.auto_clear ++
        (if subSteps ip.dt (s.diff + dt) = 0 then []
         else List.replicate (subSteps ip.dt (s.diff + dt) - 1)
            (Action.pipelineStep ip.dt) ++
          [Action.snapshot, Action.pipelineStep ip.dt]) ++
        queryLog cfg.query_pipeline_active ∧
    (step_world_system eng cfg ip dt s).interp
      = (if subSteps ip.dt (s.diff + dt) = 0 then s.interp
         else snapshotInterp eng
           (iterStep eng ip.dt (subSteps ip.dt (s.diff + dt) - 1) s.world)
           s.bodyHandles s.interp) := by
  rw [frame_fixed_active eng cfg ip dt s hfix hact hpos hnn]
  exact ⟨by rw [stepLogs_eq], rfl⟩

end SnapshotTheorem

theorem interpolation_snapshot_last_substep_witness :
    (sampleCfgFixed.time_dependent_number_of_timesteps = true ∧
     sampleCfgFixed.physics_pipeline_active = true ∧
     (0 : Rat) < 1/60 ∧ (0 : Rat) ≤ sampleStepState.diff + 1/30) ∧
    ((step_world_system unitEngine sampleCfgFixed ⟨1/60⟩ (1/30)
        sampleStepState).log
      = sampleStepState.log ++ clearLog sampleStepState.auto_clear ++
        (if subSteps ((1:Rat)/60) (sampleStepState.diff + 1/30) = 0 then []
         else List.replicate (subSteps ((1:Rat)/60) (sampleStepState.diff + 1/30) - 1)
            (Action.pipelineStep (1/60)) ++
          [Action.snapshot, Action.pipelineStep (1/60)]) ++
        queryLog sampleCfgFixed.query_pipeline_active ∧
     (step_world_system unitEngine sampleCfgFixed ⟨1/60⟩ (1/30)
        sampleStepState).interp
      = (if subSteps ((1:Rat)/60) (sampleStepState.diff + 1/30) = 0
         then sampleStepState.interp
         else snapshotInterp unitEngine
           (iterStep unitEngine (1/60)
             (subSteps ((1:Rat)/60) (sampleStepState.diff + 1/30) - 1)
             sampleStepState.world)
           sampleStepState.bodyHandles sampleStepState.interp)) :=
  ⟨⟨rfl, rfl, by norm_num, by norm_num [sampleStepState]⟩,
    interpolation_snapshot_last_substep unitEngine sampleCfgFixed ⟨1/60⟩
      (1/30) sampleStepState rfl rfl (by norm_num)
      (by norm_num [sampleStepState])⟩

section EventTheorems

variable {W Q P E1 E2 : Type}

/-- C6.  With auto-clear enabled the queue is emptied before any event of
the new step is produced, so the whole result of a frame is independent
of whatever events were left in the queue: events of step `N` are
unobservable from the moment step `N + 1` begins. -/
theorem event_auto_clear_isolation (eng : Engine W Q P E1 E2)
    (cfg : RapierConfiguration) (ip : IntegrationParameters) (dt : Rat)
    (s : StepState W Q P E1 E2) (c0 : List E1) (i0 : List E2)
    (hauto : s.auto_clear = true) :
    step_world_system eng cfg ip dt s
      = step_world_system eng cfg ip dt
          { s with contactEvents := c0, intersectionEvents := i0 } := by
  cases s
  simp_all [step_world_system, autoClearState]

/-- C7 (amended).  In variable-timestep mode with the pipeline active, the
frame performs exactly one pipeline step — advancing by the configured
integration timestep `ip.dt`, not by the frame delta, which is ignored —
and leaves the accumulator untouched. -/
theorem variable_mode_one_step (eng : Engine W Q P E1 E2)
    (cfg : RapierConfiguration) (ip : IntegrationParameters) (dt : Rat)
    (s : StepState W Q P E1 E2)
    (hvar : cfg.time_dependent_number_of_timesteps = false)
    (hact : cfg.physics_pipeline_active = true) :
    (step_world_system eng cfg ip dt s).diff = s.diff ∧
    (step_world_system eng cfg ip dt s).world = eng.stepW ip.dt s.world ∧
    (step_world_system eng cfg ip dt s).log
      = s.log ++ clearLog s.auto_clear ++ [Action.pipelineStep ip.dt] ++
        queryLog cfg.query_pipeline_active ∧
    (step_world_system eng cfg ip dt s).contactEvents
      = (if s.auto_clear then [] else s.contactEvents) ++
        eng.contactEventsOf ip.dt s.world ∧
    (step_world_system eng cfg ip dt s).intersectionEvents
      = (if s.auto_clear then [] else s.intersectionEvents) ++
        eng.intersectionEventsOf ip.dt s.world := by
  unfold step_world_system
  by_cases hc : s.auto_clear <;> by_cases hq : cfg.query_pipeline_active <;>
    simp_all [autoClearState, pipelineStepState, clearLog, queryLog]

end EventTheorems

theorem event_auto_clear_isolation_witness :
    sampleStepState.auto_clear = true ∧
    step_world_system unitEngine sampleCfgFixed ⟨1/60⟩ (1/60) sampleStepState
      = step_world_system unitEngine sampleCfgFixed ⟨1/60⟩ (1/60)
          { sampleStepState with
            contactEvents := [()], intersectionEvents := [(), ()] } :=
  ⟨rfl, event_auto_clear_isolation unitEngine sampleCfgFixed ⟨1/60⟩ (1/60)
    sampleStepState [()] [(), ()] rfl⟩

/-- A stepping state with auto-clear disabled and an empty log, so a
frame's log is exactly what the frame appends. -/
def sampleStepStateNoClear : StepState Unit Unit Unit Unit Unit :=
  ⟨0, (), (), false, [], [], [], [], []⟩

/-- C7, counterexample to the claim as stated: in variable-timestep mode
with `integration_parameters.dt = 1/60` and frame delta `1`, the single
pipeline step advances by `1/60`, not by the wall-clock delta `1` —
`delta_seconds` is not used in the variable-timestep branch. -/
theorem variable_mode_delta_counterexample :
    (step_world_system unitEngine sampleCfgVariable ⟨1/60⟩ 1
        sampleStepStateNoClear).log = [Action.pipelineStep (1/60)] ∧
    (step_world_system unitEngine sampleCfgVariable ⟨1/60⟩ 1
        sampleStepStateNoClear).log ≠ [Action.pipelineStep 1] := by
  have hlog : (step_world_system unitEngine sampleCfgVariable ⟨1/60⟩ 1
      sampleStepStateNoClear).log = [Action.pipelineStep (1/60)] := by
    simp [step_world_system, autoClearState, pipelineStepState,
      sampleStepStateNoClear, sampleCfgVariable, unitEngine]
  refine ⟨hlog, ?_⟩
  rw [hlog]
  intro h
  have h1 : ((1 : Rat)/60) = 1 := by
    have := List.head_eq_of_cons_eq h
    injection this
  norm_num at h1

theorem variable_mode_one_step_witness :
    (sampleCfgVariable.time_dependent_number_of_timesteps = false ∧
     sampleCfgVariable.physics_pipeline_active = true) ∧
    ((step_world_system unitEngine sampleCfgVariable ⟨1/60⟩ 1
        sampleStepStateNoClear).diff = sampleStepStateNoClear.diff ∧
     (step_world_system unitEngine sampleCfgVariable ⟨1/60⟩ 1
        sampleStepStateNoClear).world
      = unitEngine.stepW (1/60) sampleStepStateNoClear.world ∧
     (step_world_system unitEngine sampleCfgVariable ⟨1/60⟩ 1
        sampleStepStateNoClear).log
      = sampleStepStateNoClear.log ++ clearLog sampleStepStateNoClear.auto_clear ++
        [Action.pipelineStep (1/60)] ++
        queryLog sampleCfgVariable.query_pipeline_active ∧
     (step_world_system unitEngine sampleCfgVariable ⟨1/60⟩ 1
        sampleStepStateNoClear).contactEvents
      = (if sampleStepStateNoClear.auto_clear then []
         else sampleStepStateNoClear.contactEvents) ++
        unitEngine.contactEventsOf (1/60) sampleStepStateNoClear.world ∧
     (step_world_system unitEngine sampleCfgVariable ⟨1/60⟩ 1
        sampleStepStateNoClear).intersectionEvents
      = (if sampleStepStateNoClear.auto_clear then []
         else sampleStepStateNoClear.intersectionEvents) ++
        unitEngine.intersectionEventsOf (1/60) sampleStepStateNoClear.world) :=
  ⟨⟨rfl, rfl⟩,
    variable_mode_one_step unitEngine sampleCfgVariable ⟨1/60⟩ 1
      sampleStepStateNoClear rfl rfl⟩

section SumDependence

variable {W Q P E1 E2 : Type}

theorem iterStep_add (eng : Engine W Q P E1 E2) (h : Rat) :
    ∀ (a b : Nat) (w : W),
    iterStep eng h b (iterStep eng h a w) = iterStep eng h (a + b) w := by
  intro a
  induction a with
  | zero => intro b w; simp [iterStep]
  | succ m ih =>
    intro b w
    rw [show iterStep eng h (m + 1) w = iterStep eng h m (eng.stepW h w)
      from rfl, ih b (eng.stepW h w),
      show m + 1 + b = (m + b) + 1 from by omega]
    rfl

theorem pipeCount_append (l1 l2 : List Action) :
    pipeCount (l1 ++ l2) = pipeCount l1 + pipeCount l2 := by
  simp [pipeCount, List.filter_append]

@[simp] theorem pipeCount_clearLog (b : Bool) : pipeCount (clearLog b) = 0 := by
  cases b <;> rfl

@[simp] theorem pipeCount_queryLog (b : Bool) : pipeCount (queryLog b) = 0 := by
  cases b <;> rfl

@[simp] theorem pipeCount_stepLogs (h : Rat) :
    ∀ n : Nat, pipeCount (stepLogs h n) = n := by
  intro n
  induction n with
  | zero => rfl
  | succ m ih =>
    cases m with
    | zero => rfl
    | succ k =>
      rw [show stepLogs h (k + 2) = Action.pipelineStep h :: stepLogs h (k + 1)
        from rfl]
      rw [show pipeCount (Action.pipelineStep h :: stepLogs h (k + 1))
        = 1 + pipeCount (stepLogs h (k + 1)) from by
          simp [pipeCount, Nat.add_comm]]
      rw [ih]
      omega

/-- When the accumulator is already below the step size, no sub-step
runs. -/
theorem subSteps_zero (h d : Rat) (h0 : 0 ≤ d) (h1 : d < h) :
    subSteps h d = 0 := by
  have hpos : 0 < h := lt_of_le_of_lt h0 h1
  have : Int.floor (d / h) = 0 := by
    rw [Int.floor_eq_zero_iff]
    constructor
    · exact div_nonneg h0 hpos.le
    · rw [div_lt_one hpos]; exact h1
  simp [subSteps, this]

/-- Splitting the drained accumulator: processing `x`, retaining the
remainder and then adding `r` performs in total as many sub-steps as
processing `x + r` at once, with the same final remainder. -/
theorem subSteps_split (h x r : Rat) (hpos : 0 < h) (hx : 0 ≤ x)
    (hr : 0 ≤ r) :
    subSteps h ((x - subSteps h x * h) + r) + subSteps h x
      = subSteps h (x + r) ∧
    ((x - subSteps h x * h) + r)
        - subSteps h ((x - subSteps h x * h) + r) * h
      = (x + r) - subSteps h (x + r) * h := by
  have hZx0 : (0 : Int) ≤ Int.floor (x / h) :=
    Int.floor_nonneg.mpr (div_nonneg hx hpos.le)
  have hcx : ((subSteps h x : Nat) : Rat) = ((Int.floor (x / h) : Int) : Rat) := by
    rw [subSteps]
    exact_mod_cast congrArg Int.cast (Int.toNat_of_nonneg hZx0)
  have hd : (x - (subSteps h x : Rat) * h) + r
      = (x + r) - ((Int.floor (x / h) : Int) : Rat) * h := by
    rw [hcx]; ring
  have hdivd : ((x + r) - ((Int.floor (x / h) : Int) : Rat) * h) / h
      = (x + r) / h - ((Int.floor (x / h) : Int) : Rat) := by
    field_simp
    ring
  have hfd : Int.floor (((x - (subSteps h x : Rat) * h) + r) / h)
      = Int.floor ((x + r) / h) - Int.floor (x / h) := by
    rw [hd, hdivd, Int.floor_sub_int]
  have hmono : Int.floor (x / h) ≤ Int.floor ((x + r) / h) := by
    apply Int.floor_le_floor
    apply div_le_div_of_nonneg_right ?_ hpos.le
    linarith
  have e1 : subSteps h ((x - (subSteps h x : Rat) * h) + r)
      = (Int.floor ((x + r) / h) - Int.floor (x / h)).toNat := by
    rw [show subSteps h ((x - (subSteps h x : Rat) * h) + r)
      = (Int.floor (((x - (subSteps h x : Rat) * h) + r) / h)).toNat from rfl,
      hfd]
  constructor
  · rw [e1, show subSteps h x = (Int.floor (x / h)).toNat from rfl,
      show subSteps h (x + r) = (Int.floor ((x + r) / h)).toNat from rfl]
    omega
  · have hc1 : ((subSteps h ((x - (subSteps h x : Rat) * h) + r) : Nat) : Rat)
        = ((Int.floor ((x + r) / h) - Int.floor (x / h) : Int) : Rat) := by
      rw [e1]
      exact_mod_cast congrArg Int.cast
        (Int.toNat_of_nonneg (by omega))
    have hc2 : ((subSteps h (x + r) : Nat) : Rat)
        = ((Int.floor ((x + r) / h) : Int) : Rat) := by
      rw [show subSteps h (x + r) = (Int.floor ((x + r) / h)).toNat from rfl]
      exact_mod_cast congrArg Int.cast (Int.toNat_of_nonneg (by omega))
    rw [hc1, hc2, hcx]
    push_cast
    ring

/-- Closed form of a whole sequence of frames in fixed-timestep mode with
the pipeline active, starting from an accumulator in `[0, step)`: the
final accumulator, the engine state and the total number of pipeline
steps depend only on the total time `s.diff + dts.sum`. -/
theorem runFrames_spec (eng : Engine W Q P E1 E2)
    (cfg : RapierConfiguration) (ip : IntegrationParameters)
    (hfix : cfg.time_dependent_number_of_timesteps = true)
    (hact : cfg.physics_pipeline_active = true) (hpos : 0 < ip.dt) :
    ∀ (dts : List Rat) (s : StepState W Q P E1 E2),
    0 ≤ s.diff → s.diff < ip.dt → (∀ d ∈ dts, 0 ≤ d) →
    (runFrames eng cfg ip dts s).diff
      = (s.diff + dts.sum) - subSteps ip.dt (s.diff + dts.sum) * ip.dt ∧
    (runFrames eng cfg ip dts s).world
      = iterStep eng ip.dt (subSteps ip.dt (s.diff + dts.sum)) s.world ∧
    (runFrames eng cfg ip dts s).bodyHandles = s.bodyHandles ∧
    (runFrames eng cfg ip dts s).auto_clear = s.auto_clear ∧
    pipeCount (runFrames eng cfg ip dts s).log
      = pipeCount s.log + subSteps ip.dt (s.diff + dts.sum) := by
  intro dts
  induction dts with
  | nil =>
    intro s h0 h1 _
    have hz : subSteps ip.dt s.diff = 0 := subSteps_zero ip.dt s.diff h0 h1
    refine ⟨?_, ?_, rfl, rfl, ?_⟩ <;>
      simp [runFrames, hz, iterStep]
  | cons d rest ih =>
    intro s h0 h1 hnn
    have hd0 : 0 ≤ d := hnn d (by simp)
    have hrest : ∀ x ∈ rest, 0 ≤ x := fun x hx => hnn x (by simp [hx])
    have hr0 : 0 ≤ rest.sum := List.sum_nonneg hrest
    have hx0 : 0 ≤ s.diff + d := by linarith
    have hframe := frame_fixed_active eng cfg ip d s hfix hact hpos hx0
    have hd1 : (step_world_system eng cfg ip d s).diff
        = (s.diff + d) - subSteps ip.dt (s.diff + d) * ip.dt := by
      rw [hframe]
    have hw1 : (step_world_system eng cfg ip d s).world
        = iterStep eng ip.dt (subSteps ip.dt (s.diff + d)) s.world := by
      rw [hframe]
    have hbh1 : (step_world_system eng cfg ip d s).bodyHandles
        = s.bodyHandles := by rw [hframe]
    have hac1 : (step_world_system eng cfg ip d s).auto_clear
        = s.auto_clear := by rw [hframe]
    have hlog1 : pipeCount (step_world_system eng cfg ip d s).log
        = pipeCount s.log + subSteps ip.dt (s.diff + d) := by
      rw [hframe]
      dsimp only
      rw [pipeCount_append, pipeCount_append, pipeCount_append]
      simp only [pipeCount_clearLog, pipeCount_queryLog, pipeCount_stepLogs]
      omega
    have hb := drained_diff_bounds ip.dt (s.diff + d) hpos hx0
    rcases ih (step_world_system eng cfg ip d s)
        (by rw [hd1]; exact hb.1) (by rw [hd1]; exact hb.2) hrest with
      ⟨g1, g2, g3, g4, g5⟩
    have hsplit := subSteps_split ip.dt (s.diff + d) rest.sum hpos hx0 hr0
    have hsum : s.diff + (d :: rest).sum = (s.diff + d) + rest.sum := by
      simp [List.sum_cons]
      ring
    have hrun : runFrames eng cfg ip (d :: rest) s
        = runFrames eng cfg ip rest (step_world_system eng cfg ip d s) := rfl
    rw [hrun]
    refine ⟨?_, ?_, ?_, ?_, ?_⟩
    · rw [g1, hd1, hsum, hsplit.2]
    · rw [g2, hd1, hw1, iterStep_add, hsum, ← hsplit.1, Nat.add_comm]
    · rw [g3, hbh1]
    · rw [g4, hac1]
    · rw [g5, hd1, hlog1, hsum, ← hsplit.1]
      omega

/-- Evaluating the sub-step count from bracketing bounds. -/
theorem subSteps_eval (h d : Rat) (k : Nat) (hpos : 0 < h)
    (hlo : (k : Rat) * h ≤ d) (hhi : d < ((k : Rat) + 1) * h) :
    subSteps h d = k := by
  have hfl : Int.floor (d / h) = (k : Int) := by
    rw [Int.floor_eq_iff]
    constructor
    · rw [le_div_iff₀ hpos]
      exact_mod_cast hlo
    · rw [div_lt_iff₀ hpos]
      push_cast
      exact_mod_cast hhi
  simp [subSteps, hfl]

/-- A frame whose accumulated time stays below the step size: the
accumulator just grows, events are cleared if auto-clear is on, and
nothing else happens besides the query update. -/
theorem frame_zero_sub (eng : Engine W Q P E1 E2) (cfg : RapierConfiguration)
    (ip : IntegrationParameters) (dt : Rat) (s : StepState W Q P E1 E2)
    (hfix : cfg.time_dependent_number_of_timesteps = true)
    (hact : cfg.physics_pipeline_active = true)
    (hpos : 0 < ip.dt) (hnn : 0 ≤ s.diff + dt)
    (hz : subSteps ip.dt (s.diff + dt) = 0) :
    step_world_system eng cfg ip dt s =
      { s with
        diff := s.diff + dt
        query := if cfg.query_pipeline_active then
            eng.updateQuery s.world s.query
          else s.query
        contactEvents := if s.auto_clear then [] else s.contactEvents
        intersectionEvents := if s.auto_clear then [] else s.intersectionEvents
        log := s.log ++ clearLog s.auto_clear ++
          queryLog cfg.query_pipeline_active } := by
  rw [frame_fixed_active eng cfg ip dt s hfix hact hpos hnn]
  cases s
  simp_all [iterStep, producedContacts, producedIntersections, stepLogs]

/-- A frame performing exactly one sub-step: one pipeline step at the
pre-frame engine state, preceded by the interpolation snapshot of that
same state. -/
theorem frame_one_sub (eng : Engine W Q P E1 E2) (cfg : RapierConfiguration)
    (ip : IntegrationParameters) (dt : Rat) (s : StepState W Q P E1 E2)
    (hfix : cfg.time_dependent_number_of_timesteps = true)
    (hact : cfg.physics_pipeline_active = true)
    (hpos : 0 < ip.dt) (hnn : 0 ≤ s.diff + dt)
    (h1 : subSteps ip.dt (s.diff + dt) = 1) :
    step_world_system eng cfg ip dt s =
      { diff := s.diff + dt - ip.dt
        world := eng.stepW ip.dt s.world
        query := if cfg.query_pipeline_active then
            eng.updateQuery (eng.stepW ip.dt s.world) s.query
          else s.query
        auto_clear := s.auto_clear
        contactEvents := (if s.auto_clear then [] else s.contactEvents) ++
          eng.contactEventsOf ip.dt s.world
        intersectionEvents :=
          (if s.auto_clear then [] else s.intersectionEvents) ++
          eng.intersectionEventsOf ip.dt s.world
        bodyHandles := s.bodyHandles
        interp := snapshotInterp eng s.world s.bodyHandles s.interp
        log := s.log ++ clearLog s.auto_clear ++
          [Action.snapshot, Action.pipelineStep ip.dt] ++
          queryLog cfg.query_pipeline_active } := by
  rw [frame_fixed_active eng cfg ip dt s hfix hact hpos hnn]
  cases s
  simp_all [iterStep, producedContacts, producedIntersections, stepLogs]

@[simp] theorem pipeCount_snap_pipe (x : Rat) :
    pipeCount [Action.snapshot, Action.pipelineStep x] = 1 := rfl

/-- C3.  In fixed-timestep mode the number of executed sub-steps, the
final accumulator and the physical state depend only on the total of the
nonnegative frame deltas fed in, not on their distribution (sub-`h`
remainders are retained exactly); in particular with `h = 1/60`, feeding
`[h/3, h/3, h/3]` produces exactly one sub-step and the same accumulator,
engine state, interpolation components and event queues as feeding the
single delta `h`. -/
theorem fixed_timestep_sum_dependence (eng : Engine W Q P E1 E2)
    (cfg : RapierConfiguration) (ip : IntegrationParameters)
    (s : StepState W Q P E1 E2)
    (hfix : cfg.time_dependent_number_of_timesteps = true)
    (hact : cfg.physics_pipeline_active = true)
    (h0 : 0 ≤ s.diff) (h1 : s.diff < ip.dt) :
    (∀ dts dts' : List Rat, (∀ d ∈ dts, 0 ≤ d) → (∀ d ∈ dts', 0 ≤ d) →
      dts.sum = dts'.sum →
      (runFrames eng cfg ip dts s).diff = (runFrames eng cfg ip dts' s).diff ∧
      (runFrames eng cfg ip dts s).world = (runFrames eng cfg ip dts' s).world ∧
      pipeCount (runFrames eng cfg ip dts s).log
        = pipeCount (runFrames eng cfg ip dts' s).log) ∧
    (ip.dt = 1/60 → s.diff = 0 →
      pipeCount (runFrames eng cfg ip [ip.dt/3, ip.dt/3, ip.dt/3] s).log
        = pipeCount s.log + 1 ∧
      (runFrames eng cfg ip [ip.dt/3, ip.dt/3, ip.dt/3] s).diff
        = (runFrames eng cfg ip [ip.dt] s).diff ∧
      (runFrames eng cfg ip [ip.dt/3, ip.dt/3, ip.dt/3] s).world
        = (runFrames eng cfg ip [ip.dt] s).world ∧
      (runFrames eng cfg ip [ip.dt/3, ip.dt/3, ip.dt/3] s).interp
        = (runFrames eng cfg ip [ip.dt] s).interp ∧
      (runFrames eng cfg ip [ip.dt/3, ip.dt/3, ip.dt/3] s).contactEvents
        = (runFrames eng cfg ip [ip.dt] s).contactEvents ∧
      (runFrames eng cfg ip [ip.dt/3, ip.dt/3, ip.dt/3] s).intersectionEvents
        = (runFrames eng cfg ip [ip.dt] s).intersectionEvents) := by
  have hpos : 0 < ip.dt := lt_of_le_of_lt h0 h1
  constructor
  · intro dts dts' ha hb hsum
    rcases runFrames_spec eng cfg ip hfix hact hpos dts s h0 h1 ha with
      ⟨g1, g2, _, _, g5⟩
    rcases runFrames_spec eng cfg ip hfix hact hpos dts' s h0 h1 hb with
      ⟨g1', g2', _, _, g5'⟩
    rw [g1, g1', g2, g2', g5, g5', hsum]
    exact ⟨rfl, rfl, rfl⟩
  · intro hdt hd0
    rcases ip with ⟨ipdt⟩
    dsimp only at hdt h1 hpos ⊢
    subst hdt
    rw [show ((1 : Rat)/60)/3 = 1/180 by norm_num]
    -- the three-frame run
    have hrun3 : runFrames eng cfg ⟨1/60⟩ [1/180, 1/180, 1/180] s
        = step_world_system eng cfg ⟨1/60⟩ (1/180)
            (step_world_system eng cfg ⟨1/60⟩ (1/180)
              (step_world_system eng cfg ⟨1/60⟩ (1/180) s)) := rfl
    have hrun1 : runFrames eng cfg ⟨1/60⟩ [(1 : Rat)/60] s
        = step_world_system eng cfg ⟨1/60⟩ (1/60) s := rfl
    -- frame 1: accumulator 0 → 1/180, no sub-step
    have hz1 : subSteps ((1 : Rat)/60) (s.diff + 1/180) = 0 := by
      rw [hd0]
      exact subSteps_eval _ _ 0 (by norm_num) (by norm_num) (by norm_num)
    have hf1 := frame_zero_sub eng cfg ⟨1/60⟩ (1/180) s hfix hact
      (by norm_num) (by rw [hd0]; norm_num) hz1
    have d1 : (step_world_system eng cfg ⟨1/60⟩ (1/180) s).diff
        = s.diff + 1/180 := by rw [hf1]
    have w1 : (step_world_system eng cfg ⟨1/60⟩ (1/180) s).world = s.world := by
      rw [hf1]
    have i1 : (step_world_system eng cfg ⟨1/60⟩ (1/180) s).interp = s.interp := by
      rw [hf1]
    have b1 : (step_world_system eng cfg ⟨1/60⟩ (1/180) s).bodyHandles
        = s.bodyHandles := by rw [hf1]
    have a1 : (step_world_system eng cfg ⟨1/60⟩ (1/180) s).auto_clear
        = s.auto_clear := by rw [hf1]
    have c1 : (step_world_system eng cfg ⟨1/60⟩ (1/180) s).contactEvents
        = (if s.auto_clear then [] else s.contactEvents) := by rw [hf1]
    have j1 : (step_world_system eng cfg ⟨1/60⟩ (1/180) s).intersectionEvents
        = (if s.auto_clear then [] else s.intersectionEvents) := by rw [hf1]
    have p1 : pipeCount (step_world_system eng cfg ⟨1/60⟩ (1/180) s).log
        = pipeCount s.log := by
      rw [hf1]
      dsimp only
      rw [pipeCount_append, pipeCount_append]
      simp
    -- frame 2: accumulator 1/180 → 1/90, no sub-step
    have hz2 : subSteps ((1 : Rat)/60)
        ((step_world_system eng cfg ⟨1/60⟩ (1/180) s).diff + 1/180) = 0 := by
      rw [d1, hd0]
      exact subSteps_eval _ _ 0 (by norm_num) (by norm_num) (by norm_num)
    have hf2 := frame_zero_sub eng cfg ⟨1/60⟩ (1/180)
      (step_world_system eng cfg ⟨1/60⟩ (1/180) s) hfix hact (by norm_num)
      (by rw [d1, hd0]; norm_num) hz2
    have d2 : (step_world_system eng cfg ⟨1/60⟩ (1/180)
          (step_world_system eng cfg ⟨1/60⟩ (1/180) s)).diff
        = s.diff + 1/180 + 1/180 := by rw [hf2, d1]
    have w2 : (step_world_system eng cfg ⟨1/60⟩ (1/180)
          (step_world_system eng cfg ⟨1/60⟩ (1/180) s)).world = s.world := by
      rw [hf2, w1]
    have i2 : (step_world_system eng cfg ⟨1/60⟩ (1/180)
          (step_world_system eng cfg ⟨1/60⟩ (1/180) s)).interp = s.interp := by
      rw [hf2, i1]
    have b2 : (step_world_system eng cfg ⟨1/60⟩ (1/180)
          (step_world_system eng cfg ⟨1/60⟩ (1/180) s)).bodyHandles
        = s.bodyHandles := by rw [hf2, b1]
    have a2 : (step_world_system eng cfg ⟨1/60⟩ (1/180)
          (step_world_system eng cfg ⟨1/60⟩ (1/180) s)).auto_clear
        = s.auto_clear := by rw [hf2, a1]
    have c2 : (step_world_system eng cfg ⟨1/60⟩ (1/180)
          (step_world_system eng cfg ⟨1/60⟩ (1/180) s)).contactEvents
        = (if s.auto_clear then [] else s.contactEvents) := by
      rw [hf2, a1, c1]
      cases hb : s.auto_clear <;> simp
    have j2 : (step_world_system eng cfg ⟨1/60⟩ (1/180)
          (step_world_system eng cfg ⟨1/60⟩ (1/180) s)).intersectionEvents
        = (if s.auto_clear then [] else s.intersectionEvents) := by
      rw [hf2, a1, j1]
      cases hb : s.auto_clear <;> simp
    have p2 : pipeCount (step_world_system eng cfg ⟨1/60⟩ (1/180)
          (step_world_system eng cfg ⟨1/60⟩ (1/180) s)).log
        = pipeCount s.log := by
      rw [hf2]
      dsimp only
      rw [pipeCount_append, pipeCount_append]
      simp only [pipeCount_clearLog, pipeCount_queryLog, p1]
      omega
    -- frame 3: accumulator 1/90 → 1/60, exactly one sub-step
    have hz3 : subSteps ((1 : Rat)/60)
        ((step_world_system eng cfg ⟨1/60⟩ (1/180)
          (step_world_system eng cfg ⟨1/60⟩ (1/180) s)).diff + 1/180) = 1 := by
      rw [d2, hd0]
      exact subSteps_eval _ _ 1 (by norm_num) (by norm_num) (by norm_num)
    have hf3 := frame_one_sub eng cfg ⟨1/60⟩ (1/180)
      (step_world_system eng cfg ⟨1/60⟩ (1/180)
        (step_world_system eng cfg ⟨1/60⟩ (1/180) s)) hfix hact (by norm_num)
      (by rw [d2, hd0]; norm_num) hz3
    -- the single full-step frame
    have hzB : subSteps ((1 : Rat)/60) (s.diff + 1/60) = 1 := by
      rw [hd0]
      exact subSteps_eval _ _ 1 (by norm_num) (by norm_num) (by norm_num)
    have hfB := frame_one_sub eng cfg ⟨1/60⟩ (1/60) s hfix hact (by norm_num)
      (by rw [hd0]; norm_num) hzB
    rw [hrun3, hrun1, hf3, hfB]
    dsimp only
    refine ⟨?_, ?_, ?_, ?_, ?_, ?_⟩
    · rw [pipeCount_append, pipeCount_append, pipeCount_append]
      simp only [pipeCount_clearLog, pipeCount_queryLog, pipeCount_snap_pipe, p2]
    · rw [d2, hd0]; norm_num
    · rw [w2]
    · rw [w2, b2, i2]
    · rw [w2, a2, c2]
      cases hb : s.auto_clear <;> simp
    · rw [w2, a2, j2]
      cases hb : s.auto_clear <;> simp

end SumDependence

theorem fixed_timestep_sum_dependence_witness :
    (sampleCfgFixed.time_dependent_number_of_timesteps = true ∧
     sampleCfgFixed.physics_pipeline_active = true ∧
     (0 : Rat) ≤ sampleStepState.diff ∧
     sampleStepState.diff < (1 : Rat)/60 ∧
     sampleStepState.diff = 0) ∧
    (pipeCount (runFrames unitEngine sampleCfgFixed ⟨1/60⟩
        [(1 : Rat)/60/3, (1 : Rat)/60/3, (1 : Rat)/60/3] sampleStepState).log
      = pipeCount sampleStepState.log + 1 ∧
     (runFrames unitEngine sampleCfgFixed ⟨1/60⟩
        [(1 : Rat)/60/3, (1 : Rat)/60/3, (1 : Rat)/60/3] sampleStepState).diff
      = (runFrames unitEngine sampleCfgFixed ⟨1/60⟩ [(1 : Rat)/60]
          sampleStepState).diff ∧
     (runFrames unitEngine sampleCfgFixed ⟨1/60⟩
        [(1 : Rat)/60/3, (1 : Rat)/60/3, (1 : Rat)/60/3] sampleStepState).world
      = (runFrames unitEngine sampleCfgFixed ⟨1/60⟩ [(1 : Rat)/60]
          sampleStepState).world ∧
     (runFrames unitEngine sampleCfgFixed ⟨1/60⟩
        [(1 : Rat)/60/3, (1 : Rat)/60/3, (1 : Rat)/60/3] sampleStepState).interp
      = (runFrames unitEngine sampleCfgFixed ⟨1/60⟩ [(1 : Rat)/60]
          sampleStepState).interp ∧
     (runFrames unitEngine sampleCfgFixed ⟨1/60⟩
        [(1 : Rat)/60/3, (1 : Rat)/60/3, (1 : Rat)/60/3]
        sampleStepState).contactEvents
      = (runFrames unitEngine sampleCfgFixed ⟨1/60⟩ [(1 : Rat)/60]
          sampleStepState).contactEvents ∧
     (runFrames unitEngine sampleCfgFixed ⟨1/60⟩
        [(1 : Rat)/60/3, (1 : Rat)/60/3, (1 : Rat)/60/3]
        sampleStepState).intersectionEvents
      = (runFrames unitEngine sampleCfgFixed ⟨1/60⟩ [(1 : Rat)/60]
          sampleStepState).intersectionEvents) :=
  ⟨⟨rfl, rfl, by norm_num [sampleStepState], by norm_num [sampleStepState], rfl⟩,
    (fixed_timestep_sum_dependence unitEngine sampleCfgFixed ⟨1/60⟩
      sampleStepState rfl rfl (by norm_num [sampleStepState])
      (by norm_num [sampleStepState])).2 rfl rfl⟩

/-! ## Destruction system

`destroy_body_and_collider_system` is absent from `src/`: `systems.rs`
lines 269-312 hold only a commented-out draft.  The definitions of this
section are therefore modelled from the spec (§4.3 and §6). -/

/-- Modelled from the spec: the state the destruction system acts on.
The engine sets are reduced to what removal observes — live body handles,
colliders with their parent body handle, joints with their two attached
body handles — plus the Entity↔Handle Map and the collider/joint handle
component storages (the body handle components were already removed,
which is what the deletion stream reports). -/
structure DestroyState where
  bodies : List Nat
  colliders : List (Nat × Nat)
  joints : List (Nat × Nat × Nat)
  maps : EntityMaps
  colliderHandles : List (EntityId × Nat)
  jointHandles : List (EntityId × JointHandleComponent)

/-- Modelled from the spec: `RemoveBody(handle, &mut colliderSet,
&mut jointSet)` — removing a body cascades to its attached colliders and
to every joint attached to it. -/
def removeBodyCascade (bh : Nat) (st : DestroyState) : DestroyState :=
  { st with
    bodies := st.bodies.filter (fun b => decide (b ≠ bh))
    colliders := st.colliders.filter (fun c => decide (c.2 ≠ bh))
    joints := st.joints.filter
      (fun j => decide (j.2.1 ≠ bh) && decide (j.2.2 ≠ bh)) }

/-- Modelled from the spec: processing one entry of the body-handle
deletion stream — remove the body (with cascade), then delete any
still-present collider/joint handle components on the same entity
together with all three map entries; unknown entities are a no-op. -/
def destroyBodyStep (st : DestroyState) (e : EntityId) : DestroyState :=
  match getC st.maps.bodies e with
  | some bh =>
    let st1 := removeBodyCascade bh st
    { st1 with
      maps := { bodies := delC st1.maps.bodies e
                colliders := delC st1.maps.colliders e
                joints := delC st1.maps.joints e }
      colliderHandles := delC st1.colliderHandles e
      jointHandles := delC st1.jointHandles e }
  | none => st

/-- Modelled from the spec: processing one entry of the collider-handle
deletion stream — `RemoveCollider` without destroying the parent body,
plus the map entry. -/
def destroyColliderStep (st : DestroyState) (e : EntityId) : DestroyState :=
  match getC st.maps.colliders e with
  | some ch =>
    { st with
      colliders := st.colliders.filter (fun c => decide (c.1 ≠ ch))
      maps := { st.maps with colliders := delC st.maps.colliders e } }
  | none => st

/-- Modelled from the spec: processing one entry of the joint-handle
deletion stream. -/
def destroyJointStep (st : DestroyState) (e : EntityId) : DestroyState :=
  match getC st.maps.joints e with
  | some jh =>
    { st with
      joints := st.joints.filter (fun j => decide (j.1 ≠ jh))
      maps := { st.maps with joints := delC st.maps.joints e } }
  | none => st

/-- Modelled from the spec: the destruction system consumes the three
deletion streams, bodies first (the cascading case), then colliders, then
joints. -/
def destroy_body_and_collider_system (bodiesRemoved collidersRemoved
    jointsRemoved : List EntityId) (st : DestroyState) : DestroyState :=
  let st1 := bodiesRemoved.foldl destroyBodyStep st
  let st2 := collidersRemoved.foldl destroyColliderStep st1
  jointsRemoved.foldl destroyJointStep st2

/-- Everything of the cascaded entity `e` is gone: its body, its collider
and its joint are absent from the engine, its handle components are gone
and so are its three map entries. -/
def destroyedAt (e : EntityId) (bh ch jh : Nat) (st : DestroyState) : Prop :=
  bh ∉ st.bodies ∧
  (∀ c ∈ st.colliders, c.1 ≠ ch) ∧
  (∀ j ∈ st.joints, j.1 ≠ jh) ∧
  getC st.colliderHandles e = none ∧
  getC st.jointHandles e = none ∧
  getC st.maps.bodies e = none ∧
  getC st.maps.colliders e = none ∧
  getC st.maps.joints e = none

/-- Engine-consistency around `e` before destruction: the map knows `e`'s
body, `e`'s collider (if still present) is parented to that body, and
`e`'s joint (if still present) is attached to that body. -/
def readyAt (e : EntityId) (bh ch jh : Nat) (st : DestroyState) : Prop :=
  getC st.maps.bodies e = some bh ∧
  (∀ c ∈ st.colliders, c.1 = ch → c.2 = bh) ∧
  (∀ j ∈ st.joints, j.1 = jh → (j.2.1 = bh ∨ j.2.2 = bh))

theorem foldl_pres {σ : Type} (Pr : σ → Prop) (f : σ → EntityId → σ)
    (hf : ∀ st e, Pr st → Pr (f st e)) :
    ∀ (l : List EntityId) (st : σ), Pr st → Pr (l.foldl f st) := by
  intro l
  induction l with
  | nil => intro st h; exact h
  | cons e rest ih => intro st h; exact ih (f st e) (hf st e h)

theorem destroyedAt_bodyStep (e : EntityId) (bh ch jh : Nat)
    (st : DestroyState) (e' : EntityId) (h : destroyedAt e bh ch jh st) :
    destroyedAt e bh ch jh (destroyBodyStep st e') := by
  rcases h with ⟨h1, h2, h3, h4, h5, h6, h7, h8⟩
  unfold destroyBodyStep
  cases hm : getC st.maps.bodies e' with
  | none => exact ⟨h1, h2, h3, h4, h5, h6, h7, h8⟩
  | some bh' =>
    refine ⟨?_, ?_, ?_, ?_, ?_, ?_, ?_, ?_⟩
    · intro hmem
      exact h1 (List.mem_of_mem_filter hmem)
    · intro c hc
      exact h2 c (List.mem_of_mem_filter hc)
    · intro j hj
      exact h3 j (List.mem_of_mem_filter hj)
    · exact getC_none_of_filter _ _ _ h4
    · exact getC_none_of_filter _ _ _ h5
    · exact getC_none_of_filter _ _ _ h6
    · exact getC_none_of_filter _ _ _ h7
    · exact getC_none_of_filter _ _ _ h8

theorem destroyedAt_colliderStep (e : EntityId) (bh ch jh : Nat)
    (st : DestroyState) (e' : EntityId) (h : destroyedAt e bh ch jh st) :
    destroyedAt e bh ch jh (destroyColliderStep st e') := by
  rcases h with ⟨h1, h2, h3, h4, h5, h6, h7, h8⟩
  unfold destroyColliderStep
  cases hm : getC st.maps.colliders e' with
  | none => exact ⟨h1, h2, h3, h4, h5, h6, h7, h8⟩
  | some ch' =>
    refine ⟨h1, ?_, h3, h4, h5, h6, ?_, h8⟩
    · intro c hc
      exact h2 c (List.mem_of_mem_filter hc)
    · exact getC_none_of_filter _ _ _ h7

theorem destroyedAt_jointStep (e : EntityId) (bh ch jh : Nat)
    (st : DestroyState) (e' : EntityId) (h : destroyedAt e bh ch jh st) :
    destroyedAt e bh ch jh (destroyJointStep st e') := by
  rcases h with ⟨h1, h2, h3, h4, h5, h6, h7, h8⟩
  unfold destroyJointStep
  cases hm : getC st.maps.joints e' with
  | none => exact ⟨h1, h2, h3, h4, h5, h6, h7, h8⟩
  | some jh' =>
    refine ⟨h1, h2, ?_, h4, h5, h6, h7, ?_⟩
    · intro j hj
      exact h3 j (List.mem_of_mem_filter hj)
    · exact getC_none_of_filter _ _ _ h8

theorem readyAt_bodyStep (e : EntityId) (bh ch jh : Nat)
    (st : DestroyState) (e' : EntityId) (hne : e' ≠ e)
    (h : readyAt e bh ch jh st) :
    readyAt e bh ch jh (destroyBodyStep st e') := by
  rcases h with ⟨h1, h2, h3⟩
  unfold destroyBodyStep
  cases hm : getC st.maps.bodies e' with
  | none => exact ⟨h1, h2, h3⟩
  | some bh' =>
    refine ⟨?_, ?_, ?_⟩
    · show getC (delC st.maps.bodies e') e = some bh
      rw [getC_delC_ne _ _ _ hne]
      exact h1
    · intro c hc
      exact h2 c (List.mem_of_mem_filter hc)
    · intro j hj
      exact h3 j (List.mem_of_mem_filter hj)

/-- Processing `e` itself while `readyAt` holds destroys everything of
`e`. -/
theorem destroyBodyStep_self (e : EntityId) (bh ch jh : Nat)
    (st : DestroyState) (h : readyAt e bh ch jh st) :
    destroyedAt e bh ch jh (destroyBodyStep st e) := by
  rcases h with ⟨h1, h2, h3⟩
  unfold destroyBodyStep
  rw [h1]
  refine ⟨?_, ?_, ?_, ?_, ?_, ?_, ?_, ?_⟩
  · intro hmem
    rcases List.mem_filter.mp hmem with ⟨_, hp⟩
    simp at hp
  · intro c hc hc1
    rcases List.mem_filter.mp hc with ⟨hcm, hp⟩
    simp only [decide_eq_true_eq] at hp
    exact hp (h2 c hcm hc1)
  · intro j hj hj1
    rcases List.mem_filter.mp hj with ⟨hjm, hp⟩
    simp only [Bool.and_eq_true, decide_eq_true_eq] at hp
    rcases h3 j hjm hj1 with he | he
    · exact hp.1 he
    · exact hp.2 he
  · exact getC_delC_self _ _
  · exact getC_delC_self _ _
  · exact getC_delC_self _ _
  · exact getC_delC_self _ _
  · exact getC_delC_self _ _

/-- Destroying `e`'s body somewhere inside the body pass: the entries
before the first occurrence of `e` preserve readiness, `e`'s own entry
destroys everything, and the remaining entries preserve the
destruction. -/
theorem bodyPass_destroys (e : EntityId) (bh ch jh : Nat)
    (l2 : List EntityId) :
    ∀ (l1 : List EntityId) (st : DestroyState), e ∉ l1 →
    readyAt e bh ch jh st →
    destroyedAt e bh ch jh ((l1 ++ e :: l2).foldl destroyBodyStep st) := by
  intro l1
  induction l1 with
  | nil =>
    intro st _ hready
    rw [show ((([] : List EntityId) ++ e :: l2).foldl destroyBodyStep st)
      = l2.foldl destroyBodyStep (destroyBodyStep st e) from rfl]
    exact foldl_pres _ destroyBodyStep
      (fun st' e' h => destroyedAt_bodyStep e bh ch jh st' e' h) l2 _
      (destroyBodyStep_self e bh ch jh st hready)
  | cons f l1 ih =>
    intro st hnl1 hready
    have hfe : f ≠ e := fun hc => hnl1 (by simp [hc])
    have hnl1' : e ∉ l1 := fun hm => hnl1 (by simp [hm])
    rw [show (((f :: l1) ++ e :: l2).foldl destroyBodyStep st)
      = ((l1 ++ e :: l2).foldl destroyBodyStep (destroyBodyStep st f))
      from rfl]
    exact ih (destroyBodyStep st f) hnl1'
      (readyAt_bodyStep e bh ch jh st f hfe hready)

theorem exists_first_split {a : EntityId} :
    ∀ {l : List EntityId}, a ∈ l →
    ∃ s t, l = s ++ a :: t ∧ a ∉ s := by
  intro l
  induction l with
  | nil => intro h; cases h
  | cons b rest ih =>
    intro h
    by_cases hb : b = a
    · exact ⟨[], rest, by simp [hb], List.not_mem_nil a⟩
    · rcases List.mem_cons.mp h with h | h
      · exact absurd h.symm hb
      · rcases ih h with ⟨s, t, hst, hns⟩
        refine ⟨b :: s, t, by simp [hst], ?_⟩
        intro hmem
        rcases List.mem_cons.mp hmem with h' | h'
        · exact hb h'.symm
        · exact hns h'

/-- C5 (modelled from the spec).  Deleting the body handle of an entity
that also held a collider handle and a joint handle, with the engine
consistent around it, leaves — after one run of the destruction system —
the body, the collider and the joint absent from the engine, both
remaining handle components deleted, and all three map entries removed. -/
theorem destruction_cascade (st : DestroyState)
    (bodiesRemoved collidersRemoved jointsRemoved : List EntityId)
    (e : EntityId) (bh ch jh : Nat) (jhc : JointHandleComponent)
    (hmem : e ∈ bodiesRemoved)
    (hmb : getC st.maps.bodies e = some bh)
    (hch : getC st.colliderHandles e = some ch)
    (hmc : getC st.maps.colliders e = some ch)
    (hjh : getC st.jointHandles e = some jhc)
    (hjhh : jhc.handle = jh)
    (hmj : getC st.maps.joints e = some jh)
    (hcparent : ∀ c ∈ st.colliders, c.1 = ch → c.2 = bh)
    (hjend : ∀ j ∈ st.joints, j.1 = jh → (j.2.1 = bh ∨ j.2.2 = bh)) :
    destroyedAt e bh ch jh
      (destroy_body_and_collider_system bodiesRemoved collidersRemoved
        jointsRemoved st) := by
  rcases exists_first_split hmem with ⟨l1, l2, hsplit, hnl1⟩
  have hbody : destroyedAt e bh ch jh (bodiesRemoved.foldl destroyBodyStep st) := by
    rw [hsplit]
    exact bodyPass_destroys e bh ch jh l2 l1 st hnl1 ⟨hmb, hcparent, hjend⟩
  have hcoll := foldl_pres _ destroyColliderStep
    (fun st' e' h => destroyedAt_colliderStep e bh ch jh st' e' h)
    collidersRemoved _ hbody
  exact foldl_pres _ destroyJointStep
    (fun st' e' h => destroyedAt_jointStep e bh ch jh st' e' h)
    jointsRemoved _ hcoll

/-- A concrete pre-destruction world: entity 1's body is handle 0 with a
collider (handle 0, parented to body 0) and a joint (handle 0, between
bodies 0 and 5); entity 2 owns the other body (handle 5).  Entity 1's
body handle component has just been deleted. -/
def sampleDestroyState : DestroyState :=
  ⟨[0, 5], [(0, 0)], [(0, 0, 5)], ⟨[(1, 0), (2, 5)], [(1, 0)], [(1, 0)]⟩,
    [(1, 0)], [(1, ⟨0, 1, 2⟩)]⟩

theorem destruction_cascade_witness :
    ((1 : EntityId) ∈ [(1 : EntityId)] ∧
     getC sampleDestroyState.maps.bodies 1 = some 0 ∧
     getC sampleDestroyState.colliderHandles 1 = some 0 ∧
     getC sampleDestroyState.maps.colliders 1 = some 0 ∧
     getC sampleDestroyState.jointHandles 1 = some ⟨0, 1, 2⟩ ∧
     (JointHandleComponent.mk 0 1 2).handle = 0 ∧
     getC sampleDestroyState.maps.joints 1 = some 0 ∧
     (∀ c ∈ sampleDestroyState.colliders, c.1 = 0 → c.2 = 0) ∧
     (∀ j ∈ sampleDestroyState.joints, j.1 = 0 → (j.2.1 = 0 ∨ j.2.2 = 0))) ∧
    destroyedAt 1 0 0 0
      (destroy_body_and_collider_system [1] [] [] sampleDestroyState) :=
  ⟨⟨by decide, by decide, by decide, by decide, by decide, by decide,
    by decide, by decide, by decide⟩,
    destruction_cascade sampleDestroyState [1] [] [] 1 0 0 0 ⟨0, 1, 2⟩
      (by decide) (by decide) (by decide) (by decide) (by decide) (by decide)
      (by decide) (by decide) (by decide)⟩

end ShipyardRapier
